import Mathlib

/-!
# fileserver: credential check, session cookie, authorization gate, file handlers

A shallow embedding of `src/main.go`.

* Go `string` values are Lean `String`s; `[]byte` payloads are `List UInt8`.
* The process-wide variables `config`, `userStore` and `templates` are the
  fields of `Globals`, passed to every function that reads them.  The
  read/write mutex of `UserStore` has no sequential content and is left out.
* A handler `func(w http.ResponseWriter, r *http.Request)` is a function
  `ResponseWriter → Request → World → ResponseWriter × World`: the writer is
  passed through explicitly, and `World` holds the file system together with
  the trace of calls that leave the process (log lines, file-system calls,
  template execution).
* The pieces of the Go standard library the handlers call (`strings.Split`,
  `filepath.Join`, `http.Error`, `http.Redirect`, `http.SetCookie`,
  `os.Create`, ...) are modelled next to the code that uses them.
-/

namespace FileServer

/-! ## Strings -/

/-- Splitting of a character list at every occurrence of `sep`: the pieces
between separators, in order; `n` separators give `n + 1` pieces. -/
def splitChars (sep : Char) : List Char → List (List Char)
  | [] => [[]]
  | c :: cs =>
    if c = sep then [] :: splitChars sep cs
    else
      match splitChars sep cs with
      | [] => [[c]]
      | piece :: pieces => (c :: piece) :: pieces

/-- Go `strings.Split(s, sep)` for a separator of one character (both call
sites of the program split on ":"). -/
def Split (s : String) (sep : Char) : List String :=
  (splitChars sep s.data).map String.mk

/-- Go `strings.Join(elems, sep)`. -/
def joinStrings (elems : List String) (sep : String) : String :=
  sep.intercalate elems

/-- The bytes of a Go string (`[]byte(s)`). -/
def bytes (s : String) : List UInt8 :=
  s.data.flatMap String.utf8EncodeChar

/-! ## Data model (`Config`, `User`, `UserStore`) -/

/-- Go `type Config struct`. -/
structure Config where
  ServerHost : String
  ServerPort : String
  FileDir : String
  UserFile : String

/-- Go `type User struct`. -/
structure User where
  Username : String
  Password : String
deriving DecidableEq, Repr

/-- Go `type UserStore struct` (without the mutex). -/
structure UserStore where
  Users : List User

/-- Go `validateCredentials`: the `for ... range userStore.Users` loop, which
returns `true` at the first record equal in both fields and `false` when the
slice is exhausted. -/
def validateCredentials (userStore : UserStore) (username password : String) : Bool :=
  let rec loop : List User → Bool
    | [] => false
    | user :: rest =>
      if user.Username = username ∧ user.Password = password then true
      else loop rest
  loop userStore.Users

/-! ## Paths (`path/filepath`, Unix) -/

/-- The outcome of the lexical pass of `filepath.Clean`: whether the path
starts with a separator, and the elements that remain. -/
structure Lexical where
  rooted : Bool
  elems : List String
deriving DecidableEq, Repr

/-- One step of the loop of `filepath.Clean` over the elements of the path;
`out` is the output so far, last element first.  An empty element and "."
are skipped; ".." removes the last element when there is one that is not
itself "..", is dropped at the root, and is kept otherwise; any other
element is appended. -/
def cleanStep (rooted : Bool) (out : List String) (e : String) : List String :=
  if e = "" ∨ e = "." then out
  else if e = ".." then
    match out with
    | [] => if rooted then [] else [".."]
    | last :: before => if last = ".." then ".." :: last :: before else before
  else e :: out

/-- The lexical pass of `filepath.Clean` over a whole path. -/
def cleanParts (path : String) : Lexical :=
  let rooted := path.data.head? = some '/'
  { rooted := rooted
    elems := ((Split path '/').foldl (cleanStep rooted) []).reverse }

/-- The string `filepath.Clean` returns for the outcome of its lexical pass:
the elements joined by "/", after a leading "/" for a rooted path; "." for
an empty relative path. -/
def render (l : Lexical) : String :=
  if l.rooted then "/" ++ joinStrings l.elems "/"
  else if l.elems = [] then "."
  else joinStrings l.elems "/"

/-- Go `filepath.Clean`. -/
def Clean (path : String) : String :=
  render (cleanParts path)

/-- Go `filepath.Join(a, b)`: the first non-empty argument and everything
after it, joined by "/" and cleaned; "" when both are empty. -/
def Join (a b : String) : String :=
  if a ≠ "" then Clean (joinStrings [a, b] "/")
  else if b ≠ "" then Clean b
  else ""

/-- Go `filepath.Base`: the last element of the path; "." for the empty
path and "/" for a path of separators only. -/
def Base (path : String) : String :=
  if path = "" then "."
  else
    match ((Split path '/').filter (fun e => e ≠ "")).getLast? with
    | none => "/"
    | some e => e

/-! ## Requests (`net/http`) -/

/-- Go `http.Cookie`, with the fields the program sets or reads. -/
structure Cookie where
  Name : String
  Value : String
  Path : String
  MaxAge : Int
deriving DecidableEq, Repr

/-- An uploaded part of a multipart form: the `multipart.FileHeader` name and
the `multipart.File` stream, which yields `Data` and then ends, with a read
error when `Err` is set. -/
structure Upload where
  Filename : String
  Data : List UInt8
  Err : Bool
deriving DecidableEq, Repr

/-- Go `http.Request`, after parsing: method, peer address, the cookies
read from the `Cookie` header, the URL query, the form fields of the body
and the uploaded files, each as key/value pairs in order. -/
structure Request where
  Method : String
  RemoteAddr : String
  Cookies : List Cookie
  Query : List (String × String)
  PostForm : List (String × String)
  Files : List (String × Upload)

namespace Request

/-- Go `r.Cookie(name)`: the first cookie of that name, `none` for
`http.ErrNoCookie`. -/
def Cookie (r : Request) (name : String) : Option FileServer.Cookie :=
  if name = "" then none else r.Cookies.find? (fun c => c.Name = name)

/-- Go `r.URL.Query().Get(key)`: the first value of the key, "" when absent. -/
def QueryGet (r : Request) (key : String) : String :=
  (r.Query.lookup key).getD ""

/-- Go `r.FormValue(key)`: the first value of the key in `r.Form`, where body
fields precede query fields; "" when absent. -/
def FormValue (r : Request) (key : String) : String :=
  ((r.PostForm ++ r.Query).lookup key).getD ""

/-- Go `r.FormFile(key)`: the first uploaded file under the key, `none` for
`http.ErrMissingFile`. -/
def FormFile (r : Request) (key : String) : Option Upload :=
  r.Files.lookup key

end Request

/-! ## Responses (`net/http`) -/

/-- Go `http.Header`, with the `Set-Cookie` lines kept as cookie structs
whose value and path are the strings on the line. -/
structure Header where
  Fields : List (String × String)
  SetCookie : List Cookie
deriving DecidableEq, Repr

namespace Header

/-- Go `h.Set(key, value)`. -/
def Set (h : Header) (key value : String) : Header :=
  { h with Fields := h.Fields.filter (fun kv => kv.1 ≠ key) ++ [(key, value)] }

/-- Go `h.Del(key)`. -/
def Del (h : Header) (key : String) : Header :=
  { h with Fields := h.Fields.filter (fun kv => kv.1 ≠ key) }

/-- Go `h.Get(key)`: "" when the key is absent. -/
def Get (h : Header) (key : String) : String :=
  (h.Fields.lookup key).getD ""

/-- Go `_, ok := h[key]`. -/
def Has (h : Header) (key : String) : Bool :=
  (h.Fields.lookup key).isSome

end Header

/-- The server side of `http.ResponseWriter` (`net/http`, `type response`):
`handlerHeader` is the map `w.Header()` returns; the first `WriteHeader`
fixes `status` and copies the map to `sentHeader`, later calls are ignored;
`body` is what was written; `broken` says that the connection is lost, so
that writes fail. -/
structure ResponseWriter where
  handlerHeader : Header
  wroteHeader : Bool
  status : Nat
  sentHeader : Header
  body : List UInt8
  broken : Bool
deriving DecidableEq, Repr

/-- The response the client receives from a writer once the handler has
returned (a handler that never wrote gets status 200 and the header map as
it stands). -/
structure Response where
  status : Nat
  header : Header
  body : List UInt8
deriving DecidableEq, Repr

namespace ResponseWriter

/-- The writer at the start of a request. -/
def new : ResponseWriter :=
  { handlerHeader := ⟨[], []⟩, wroteHeader := false, status := 0,
    sentHeader := ⟨[], []⟩, body := [], broken := false }

/-- Go `w.WriteHeader(code)`. -/
def WriteHeader (w : ResponseWriter) (code : Nat) : ResponseWriter :=
  if w.wroteHeader then w
  else { w with wroteHeader := true, status := code, sentHeader := w.handlerHeader }

/-- Go `w.Write(data)`: the header goes out with status 200 when none was
written; the result carries the error flag. -/
def Write (w : ResponseWriter) (data : List UInt8) : ResponseWriter × Bool :=
  let w := w.WriteHeader 200
  if w.broken then (w, true) else ({ w with body := w.body ++ data }, false)

/-- Go `fmt.Fprintln(w, s)`, its error dropped as the callers do. -/
def Fprintln (w : ResponseWriter) (s : String) : ResponseWriter :=
  (w.Write (bytes (s ++ "\n"))).1

/-- The response of a finished request. -/
def response (w : ResponseWriter) : Response :=
  let w := w.WriteHeader 200
  { status := w.status, header := w.sentHeader, body := w.body }

end ResponseWriter

/-- The `validCookieValueByte` of `net/http`: printable ASCII other than the
double quote, the semicolon and the backslash.  (A character outside ASCII
is made of bytes that are all invalid.) -/
def validCookieValueByte (c : Char) : Bool :=
  decide (0x20 ≤ c.toNat) && decide (c.toNat < 0x7f) && c != '"' && c != ';'
    && c != Char.ofNat 92

/-- The `validCookiePathByte` of `net/http`. -/
def validCookiePathByte (c : Char) : Bool :=
  decide (0x20 ≤ c.toNat) && decide (c.toNat < 0x7f) && c != ';'

/-- The token characters of HTTP (`httpguts.IsTokenRune`): letters, digits
and the fifteen marks allowed in a token. -/
def isTokenRune (c : Char) : Bool :=
  c.isAlphanum ||
    [33, 35, 36, 37, 38, 39, 42, 43, 45, 46, 94, 95, 96, 124, 126].contains c.toNat

/-- The `isCookieNameValid` of `net/http`. -/
def isCookieNameValid (name : String) : Bool :=
  name != "" && name.data.all isTokenRune

/-- The `sanitizeCookieValue` of `net/http`: the invalid bytes are dropped,
and what is left is put between double quotes when it holds a space or a
comma. -/
def sanitizeCookieValue (v : String) : String :=
  let v := String.mk (v.data.filter validCookieValueByte)
  if v.data = [] then v
  else if v.data.any (fun c => c = ' ' || c = ',') then "\"" ++ v ++ "\""
  else v

/-- The `sanitizeCookiePath` of `net/http`. -/
def sanitizeCookiePath (v : String) : String :=
  String.mk (v.data.filter validCookiePathByte)

/-- The `parseCookieValue` of `net/http`, as `r.Cookie` applies it to the
value found in the `Cookie` header: surrounding double quotes are stripped,
and a value with an invalid byte is refused. -/
def parseCookieValue (raw : String) : Option String :=
  let chars :=
    if 1 < raw.data.length ∧ raw.data.head? = some '"' ∧ raw.data.getLast? = some '"' then
      (raw.data.drop 1).dropLast
    else raw.data
  if chars.all validCookieValueByte then some (String.mk chars) else none

/-- Go `http.SetCookie(w, cookie)`: when the name is valid, one more
`Set-Cookie` line in the header map, with the value and the path as
`cookie.String()` writes them. -/
def SetCookie (w : ResponseWriter) (cookie : Cookie) : ResponseWriter :=
  if isCookieNameValid cookie.Name then
    { w with handlerHeader :=
        { w.handlerHeader with SetCookie := w.handlerHeader.SetCookie ++
            [{ cookie with Value := sanitizeCookieValue cookie.Value,
                           Path := sanitizeCookiePath cookie.Path }] } }
  else w

/-- Go `http.Error(w, error, code)`. -/
def Error (w : ResponseWriter) (error : String) (code : Nat) : ResponseWriter :=
  let h := w.handlerHeader
  let h := h.Del "Content-Length"
  let h := h.Set "Content-Type" "text/plain; charset=utf-8"
  let h := h.Set "X-Content-Type-Options" "nosniff"
  let w := { w with handlerHeader := h }
  let w := w.WriteHeader code
  w.Fprintln error

/-- Go `http.StatusText`, for the codes the program uses. -/
def StatusText (code : Nat) : String :=
  if code = 302 then "Found"
  else if code = 400 then "Bad Request"
  else if code = 401 then "Unauthorized"
  else if code = 404 then "Not Found"
  else if code = 405 then "Method Not Allowed"
  else if code = 500 then "Internal Server Error"
  else ""

/-- The `htmlEscape` of `net/http`. -/
def htmlEscape (s : String) : String :=
  String.join (s.data.map fun c =>
    if c = '&' then "&amp;"
    else if c = '<' then "&lt;"
    else if c = '>' then "&gt;"
    else if c = '"' then "&#34;"
    else if c = Char.ofNat 39 then "&#39;"
    else String.singleton c)

/-- Go `http.Redirect(w, r, url, code)` for a target that is already an
absolute, clean, ASCII path (every call of the program passes "/"), which
`Redirect` puts in `Location` as it is. -/
def Redirect (w : ResponseWriter) (r : Request) (url : String) (code : Nat) : ResponseWriter :=
  let h := w.handlerHeader
  let hadCT := h.Has "Content-Type"
  let h := h.Set "Location" url
  let h :=
    if !hadCT && (r.Method = "GET" || r.Method = "HEAD") then
      h.Set "Content-Type" "text/html; charset=utf-8"
    else h
  let w := { w with handlerHeader := h }
  let w := w.WriteHeader code
  if !hadCT && r.Method = "GET" then
    w.Fprintln ("<a href=\"" ++ htmlEscape url ++ "\">" ++ StatusText code ++ "</a>.\n")
  else w

/-! ## The file system and the outside world -/

/-- What a path of the file system names: a regular file with its content,
or a directory. -/
inductive Node where
  | file (data : List UInt8)
  | dir
deriving DecidableEq, Repr

/-- The file system as a map from path to node (`files`, the first entry of
a path counts), together with what the operating system decides: at which
paths `os.Create` succeeds (never at a directory), at which paths it allows
a removal, and whether the disk is full. -/
structure FS where
  files : List (String × Node)
  creatable : String → Bool
  removable : String → Bool
  noSpace : Bool

namespace FS

/-- What a path names, `none` for a path that does not exist. -/
def node (fs : FS) (path : String) : Option Node :=
  fs.files.lookup path

/-- The content of the regular file at a path. -/
def lookup (fs : FS) (path : String) : Option (List UInt8) :=
  match fs.node path with
  | some (Node.file data) => some data
  | _ => none

/-- The map with `path` bound to a regular file of content `data`. -/
def store (fs : FS) (path : String) (data : List UInt8) : FS :=
  { fs with files := (path, Node.file data) :: fs.files.filter (fun e => e.1 ≠ path) }

/-- The map without `path`. -/
def erase (fs : FS) (path : String) : FS :=
  { fs with files := fs.files.filter (fun e => e.1 ≠ path) }

/-- No entry of the map is a direct child of `path`. -/
def isEmptyDir (fs : FS) (path : String) : Bool :=
  fs.files.all (fun e => decide (e.1 = path) || decide (Join path (Base e.1) ≠ e.1))

/-- Whether `os.Remove(path)` succeeds: the path exists, the operating system
allows the removal, and a directory is empty. -/
def canRemove (fs : FS) (path : String) : Bool :=
  match fs.node path with
  | none => false
  | some (Node.file _) => fs.removable path
  | some Node.dir => fs.removable path && fs.isEmptyDir path

end FS

/-- The data `mainPageHandler` hands to the template. -/
structure ViewData where
  IsAuthorized : Bool
  Files : List String
deriving DecidableEq, Repr

/-- The calls of a handler that leave the process. -/
inductive Event where
  | log (msg : String)
  | osCreate (path : String)
  | osOpen (path : String)
  | osRemove (path : String)
  | osReadDir (dir : String)
  | executeTemplate (name : String) (data : ViewData)
deriving DecidableEq, Repr

/-- The state a handler runs in: the storage directory and the trace of the
calls made so far, oldest first. -/
structure World where
  fs : FS
  trace : List Event

namespace World

/-- One more call in the trace. -/
def emit (world : World) (e : Event) : World :=
  { world with trace := world.trace ++ [e] }

/-- Go `log.Printf(format, r.RemoteAddr)`. -/
def Printf (world : World) (msg : String) : World :=
  world.emit (Event.log msg)

/-- Go `os.Create(path)`: the file is created or truncated; the flag is the
error. -/
def Create (world : World) (path : String) : World × Bool :=
  let world := world.emit (Event.osCreate path)
  if world.fs.creatable path then ({ world with fs := world.fs.store path [] }, false)
  else (world, true)

/-- Go `io.Copy(out, file)` into the file created at `path`: the data of the
stream is appended to the file, unless the disk is full; the flag is the
error, raised by a failed write or by a stream that ends in a read error. -/
def Copy (world : World) (path : String) (file : Upload) : World × Bool :=
  if file.Data ≠ [] ∧ world.fs.noSpace then (world, true)
  else
    ({ world with fs := world.fs.store path (((world.fs.lookup path).getD []) ++ file.Data) },
      file.Err)

/-- Go `os.Open(path)`: the file or directory opened, `none` for an error. -/
def Open (world : World) (path : String) : World × Option Node :=
  (world.emit (Event.osOpen path), world.fs.node path)

/-- Go `os.Remove(path)`: a file or an empty directory is removed; the flag
is the error, raised for a path that does not exist, for a directory that is
not empty and for a removal the operating system refuses. -/
def Remove (world : World) (path : String) : World × Bool :=
  let world := world.emit (Event.osRemove path)
  if world.fs.canRemove path then ({ world with fs := world.fs.erase path }, false)
  else (world, true)

/-- Insertion of a name into a list of names sorted in increasing order. -/
def insertName (name : String) : List String → List String
  | [] => [name]
  | x :: xs => if name.data < x.data then name :: x :: xs else x :: insertName name xs

/-- Go `os.ReadDir(dir)`, its error dropped as the caller does: the names of
the files and directories that are direct children of `dir`, sorted. -/
def ReadDir (world : World) (dir : String) : World × List String :=
  let names := (world.fs.files.filter
    (fun e => decide (e.1 ≠ Clean dir) && decide (Join dir (Base e.1) = e.1))).map
    (fun e => Base e.1)
  (world.emit (Event.osReadDir dir), names.foldr insertName [])

end World

/-- Go `io.Copy(w, src)` of a content to the response: one write of the
content, none for an empty one; the flag is the error. -/
def copyToResponse (w : ResponseWriter) (data : List UInt8) : ResponseWriter × Bool :=
  if data = [] then (w, false) else w.Write data

/-- Go `io.Copy(w, file)` from what `os.Open` returned: the content of a
regular file is copied; reading a directory fails before anything is
written. -/
def copyFileToResponse (w : ResponseWriter) (file : Node) : ResponseWriter × Bool :=
  match file with
  | Node.file data => copyToResponse w data
  | Node.dir => (w, true)

/-- The parsed template set (`templates/main.html` is not part of the
sources): what executing the named template on the data writes, and whether
execution ends in an error. -/
abbrev Template := String → ViewData → List UInt8 × Bool

/-- The package-level variables of the program. -/
structure Globals where
  config : Config
  userStore : UserStore
  templates : Template

/-- Go `templates.ExecuteTemplate(w, name, data)`. -/
def ExecuteTemplate (templates : Template) (w : ResponseWriter) (name : String)
    (data : ViewData) : ResponseWriter × Bool :=
  let out := templates name data
  let written := copyToResponse w out.1
  (written.1, written.2 || out.2)

/-- Go `http.HandlerFunc`. -/
abbrev HandlerFunc := ResponseWriter → Request → World → ResponseWriter × World

/-! ## The handlers of `main.go` -/

/-- Go `authMiddleware`. -/
def authMiddleware (g : Globals) (next : HandlerFunc) : HandlerFunc :=
  fun w r world =>
    match r.Cookie "auth" with
    | none =>
      let world := world.Printf ("Unauthorized access attempt: " ++ r.RemoteAddr)
      (Redirect w r "/" 302, world)
    | some cookie =>
      let authParts := Split cookie.Value ':'
      if authParts.length ≠ 2
          || !validateCredentials g.userStore (authParts.getD 0 "") (authParts.getD 1 "") then
        let world := world.Printf ("Invalid cookie or credentials: " ++ r.RemoteAddr)
        (Redirect w r "/" 302, world)
      else
        next w r world

/-- The value `isAuthorized` of `mainPageHandler` (lines 144-153): computed
from the `auth` cookie of the request. -/
def isAuthorized (g : Globals) (r : Request) : Bool :=
  match r.Cookie "auth" with
  | none => false
  | some cookie =>
    let authParts := Split cookie.Value ':'
    if authParts.length ≠ 2 then false
    else validateCredentials g.userStore (authParts.getD 0 "") (authParts.getD 1 "")

/-- Go `mainPageHandler` from line 144 on: the page is rendered for the
request, on the writer the login part leaves. -/
def renderMainPage (g : Globals) : HandlerFunc :=
  fun w r world =>
    let isAuthorized := isAuthorized g r
    let (world, files) := world.ReadDir g.config.FileDir
    let fileNames := files
    let data : ViewData := { IsAuthorized := isAuthorized, Files := fileNames }
    let world := world.emit (Event.executeTemplate "main.html" data)
    let (w, err) := ExecuteTemplate g.templates w "main.html" data
    if err then (Error w "Failed to render page" 500, world)
    else (w, world)

/-- Go `mainPageHandler`. -/
def mainPageHandler (g : Globals) : HandlerFunc :=
  fun w r world =>
    if r.Method = "POST" then
      let username := r.FormValue "username"
      let password := r.FormValue "password"
      if validateCredentials g.userStore username password then
        let w := SetCookie w { Name := "auth", Value := username ++ ":" ++ password,
                               Path := "/", MaxAge := 0 }
        renderMainPage g w r world
      else
        (Error w "Invalid credentials" 401, world)
    else
      renderMainPage g w r world

/-- Go `uploadHandler`. -/
def uploadHandler (g : Globals) : HandlerFunc :=
  fun w r world =>
    if r.Method ≠ "POST" then (Error w "Method not allowed" 405, world)
    else
      match r.FormFile "file" with
      | none => (Error w "Failed to read file" 400, world)
      | some file =>
        let filePath := Join g.config.FileDir file.Filename
        let (world, err) := world.Create filePath
        if err then (Error w "Failed to save file" 500, world)
        else
          let (world, err) := world.Copy filePath file
          let w := if err then Error w "Failed to save file" 500 else w
          (Redirect w r "/" 302, world)

/-- Go `fileListHandler`: an empty body. -/
def fileListHandler (_g : Globals) : HandlerFunc :=
  fun w _r world => (w, world)

/-- Go `deleteHandler`. -/
def deleteHandler (g : Globals) : HandlerFunc :=
  fun w r world =>
    if r.Method ≠ "POST" then (Error w "Method not allowed" 405, world)
    else
      let fileName := r.FormValue "filename"
      let filePath := Join g.config.FileDir fileName
      let (world, err) := world.Remove filePath
      if err then (Error w "Failed to delete file" 500, world)
      else (Redirect w r "/" 302, world)

/-- Go `downloadHandler`. -/
def downloadHandler (g : Globals) : HandlerFunc :=
  fun w r world =>
    let fileName := r.QueryGet "filename"
    let filePath := Join g.config.FileDir fileName
    match world.Open filePath with
    | (world, none) => (Error w "File not found" 404, world)
    | (world, some file) =>
      let w := { w with handlerHeader :=
        w.handlerHeader.Set "Content-Disposition" ("attachment; filename=\"" ++ fileName ++ "\"") }
      let w := { w with handlerHeader :=
        w.handlerHeader.Set "Content-Type" "application/octet-stream" }
      let (w, err) := copyFileToResponse w file
      if err then (Error w "Failed to download file" 500, world)
      else (w, world)

/-- Go `logoutHandler`. -/
def logoutHandler (_g : Globals) : HandlerFunc :=
  fun w r world =>
    let w := SetCookie w { Name := "auth", Value := "", Path := "/", MaxAge := -1 }
    (Redirect w r "/" 302, world)

/-! ## Sample data -/

/-- The credential store of the scenarios of the specification. -/
def aliceStore : UserStore :=
  { Users := [{ Username := "alice", Password := "secret1" }] }

/-- A template that writes one word, by the authorization flag. -/
def sampleTemplates : Template :=
  fun _ data => (bytes (if data.IsAuthorized then "dashboard" else "login"), false)

/-- Globals with the storage directory `files` and the store `aliceStore`. -/
def sampleGlobals : Globals :=
  { config := { ServerHost := "localhost", ServerPort := "8080", FileDir := "files",
                UserFile := "users.json" }
    userStore := aliceStore
    templates := sampleTemplates }

/-- A world with the given files and no restriction from the operating
system. -/
def worldOf (files : List (String × List UInt8)) : World :=
  { fs := { files := files.map (fun e => (e.1, Node.file e.2)), creatable := fun _ => true,
            removable := fun _ => true, noSpace := false }
    trace := [] }

/-- A request without cookies, query, form fields or files. -/
def bareRequest (method : String) : Request :=
  { Method := method, RemoteAddr := "10.0.0.7:40000", Cookies := [], Query := [],
    PostForm := [], Files := [] }

/-- A `GET` request that carries the cookie `auth` with the given value. -/
def requestWithAuth (value : String) : Request :=
  { bareRequest "GET" with Cookies := [{ Name := "auth", Value := value, Path := "", MaxAge := 0 }] }

/-- A `POST /` request with the login form filled in. -/
def loginRequest (username password : String) : Request :=
  { bareRequest "POST" with PostForm := [("username", username), ("password", password)] }

/-- A store whose only record has a password with a colon in it. -/
def colonStore : UserStore :=
  { Users := [{ Username := "bob", Password := "pa:ss" }] }

/-- The sample globals with the store `colonStore`. -/
def colonGlobals : Globals :=
  { sampleGlobals with userStore := colonStore }

/-- A `POST /upload` request with one file under the field `file`. -/
def uploadRequest (file : Upload) : Request :=
  { bareRequest "POST" with Files := [("file", file)] }

/-- A `GET /download?filename=...` request. -/
def downloadRequest (fileName : String) : Request :=
  { bareRequest "GET" with Query := [("filename", fileName)] }

/-- A `POST /delete` request with the form field `filename`. -/
def deleteRequest (fileName : String) : Request :=
  { bareRequest "POST" with PostForm := [("filename", fileName)] }

/-- An upload of `report.txt` whose stream breaks after two bytes. -/
def brokenUpload : Upload :=
  { Filename := "report.txt", Data := [104, 101], Err := true }

/-- A world without files in which `os.Create` fails everywhere. -/
def readOnlyWorld : World :=
  { fs := { files := [], creatable := fun _ => false, removable := fun _ => true,
            noSpace := false }
    trace := [] }

/-- A store whose only record has a password with a semicolon in it. -/
def semicolonStore : UserStore :=
  { Users := [{ Username := "carol", Password := "pa;ss" }] }

/-- The sample globals with the store `semicolonStore`. -/
def semicolonGlobals : Globals :=
  { sampleGlobals with userStore := semicolonStore }

/-- A `POST /` login that also carries the cookie `auth` with the given
value. -/
def loginRequestWithAuth (username password value : String) : Request :=
  { loginRequest username password with
    Cookies := [{ Name := "auth", Value := value, Path := "", MaxAge := 0 }] }

/-- A world whose only entry is the storage directory `files`, empty. -/
def emptyRootWorld : World :=
  { fs := { files := [("files", Node.dir)], creatable := fun _ => true,
            removable := fun _ => true, noSpace := false }
    trace := [] }

/-- A handler that only leaves a mark in the trace. -/
def markHandler : HandlerFunc :=
  fun w _r world => (w, world.emit (Event.log "next"))

/-! ## Lemmas on splitting -/

theorem splitChars_ne_nil (sep : Char) (s : List Char) : splitChars sep s ≠ [] := by
  induction s with
  | nil => simp [splitChars]
  | cons c cs ih =>
    unfold splitChars
    split
    · simp
    · split <;> simp

theorem splitChars_cons_ne (sep c : Char) (cs : List Char) (h : c ≠ sep) :
    ∃ piece pieces, splitChars sep cs = piece :: pieces ∧
      splitChars sep (c :: cs) = (c :: piece) :: pieces := by
  cases hs : splitChars sep cs with
  | nil => exact absurd hs (splitChars_ne_nil sep cs)
  | cons piece pieces =>
    refine ⟨piece, pieces, rfl, ?_⟩
    rw [splitChars, if_neg h, hs]

theorem splitChars_cons_sep (sep : Char) (cs : List Char) :
    splitChars sep (sep :: cs) = [] :: splitChars sep cs := by
  rw [splitChars, if_pos rfl]

theorem splitChars_append_sep (sep : Char) (a b : List Char) :
    splitChars sep (a ++ sep :: b) = splitChars sep a ++ splitChars sep b := by
  induction a with
  | nil => simp [splitChars]
  | cons c cs ih =>
    by_cases hc : c = sep
    · subst hc
      rw [List.cons_append, splitChars_cons_sep, splitChars_cons_sep, ih, List.cons_append]
    · obtain ⟨piece, pieces, h1, h2⟩ := splitChars_cons_ne sep c cs hc
      obtain ⟨piece2, pieces2, h3, h4⟩ := splitChars_cons_ne sep c (cs ++ sep :: b) hc
      rw [List.cons_append, h4, h2]
      rw [ih, h1, List.cons_append] at h3
      injection h3 with e1 e2
      rw [List.cons_append, e1, e2]

theorem splitChars_of_not_mem (sep : Char) (s : List Char) (h : sep ∉ s) :
    splitChars sep s = [s] := by
  induction s with
  | nil => simp [splitChars]
  | cons c cs ih =>
    have hc : c ≠ sep := fun e => h (by simp [e])
    have hcs : sep ∉ cs := fun e => h (by simp [e])
    obtain ⟨piece, pieces, h1, h2⟩ := splitChars_cons_ne sep c cs hc
    rw [ih hcs] at h1
    injection h1 with e1 e2
    rw [h2, ← e1, ← e2]

theorem splitChars_length (sep : Char) (s : List Char) :
    (splitChars sep s).length = s.count sep + 1 := by
  induction s with
  | nil => simp [splitChars]
  | cons c cs ih =>
    by_cases hc : c = sep
    · subst hc
      rw [splitChars_cons_sep, List.length_cons, ih, List.count_cons_self]
    · obtain ⟨piece, pieces, h1, h2⟩ := splitChars_cons_ne sep c cs hc
      rw [h2, List.length_cons, List.count_cons_of_ne (Ne.symm hc), ← ih, h1, List.length_cons]

theorem Split_append_sep (a b : String) (sep : Char) :
    Split (a ++ String.singleton sep ++ b) sep = Split a sep ++ Split b sep := by
  simp [Split, String.data_append, String.singleton, splitChars_append_sep]

theorem Split_of_not_mem (s : String) (sep : Char) (h : sep ∉ s.data) :
    Split s sep = [s] := by
  simp [Split, splitChars_of_not_mem sep s.data h]

theorem Split_length (s : String) (sep : Char) :
    (Split s sep).length = s.data.count sep + 1 := by
  simp [Split, splitChars_length]

/-- The number of parts of a token: one more than the colons in it, so a
colon inside either field gives three parts or more. -/
theorem Split_token_length (u p : String) :
    (Split (u ++ ":" ++ p) ':').length = u.data.count ':' + p.data.count ':' + 2 := by
  have h := Split_append_sep u p ':'
  have e : (u ++ ":" ++ p) = (u ++ String.singleton ':' ++ p) := rfl
  rw [e, h, List.length_append, Split_length, Split_length]
  omega

/-! ## Lemmas on the credential check -/

theorem validateCredentials_loop_iff (users : List User) (u p : String) :
    validateCredentials.loop u p users = true ↔
      ∃ user ∈ users, user.Username = u ∧ user.Password = p := by
  induction users with
  | nil => simp [validateCredentials.loop]
  | cons user rest ih =>
    unfold validateCredentials.loop
    by_cases h : user.Username = u ∧ user.Password = p
    · simp [h]
    · rw [if_neg h, ih]
      simp only [List.mem_cons, exists_eq_or_imp]
      tauto

/-! ## Lemmas on headers and writers -/

theorem lookup_filter_ne {β : Type} (F : List (String × β)) (k k2 : String) :
    (F.filter (fun kv => kv.1 ≠ k)).lookup k2 = if k2 = k then none else F.lookup k2 := by
  induction F with
  | nil => simp
  | cons kv rest ih =>
    obtain ⟨a, b⟩ := kv
    by_cases ha : a = k
    · have hf : List.filter (fun kv => decide (kv.1 ≠ k)) ((a, b) :: rest) =
          List.filter (fun kv => decide (kv.1 ≠ k)) rest := by
        rw [List.filter_cons]; simp [ha]
      rw [hf, ih]
      by_cases h2 : k2 = k
      · simp [h2]
      · have h3 : (k2 == a) = false := by rw [ha]; simpa using h2
        simp [h2, List.lookup_cons, h3]
    · have hf : List.filter (fun kv => decide (kv.1 ≠ k)) ((a, b) :: rest) =
          (a, b) :: List.filter (fun kv => decide (kv.1 ≠ k)) rest := by
        rw [List.filter_cons]; simp [ha]
      rw [hf]
      by_cases h2 : k2 = a
      · subst h2
        simp [List.lookup_cons, ha]
      · have h3 : (k2 == a) = false := by simpa using h2
        rw [List.lookup_cons, List.lookup_cons, h3, ih]

theorem lookup_append_single (F : List (String × String)) (k v k2 : String) :
    (F ++ [(k, v)]).lookup k2 =
      (F.lookup k2).orElse (fun _ => if k2 = k then some v else none) := by
  induction F with
  | nil =>
    by_cases h : k2 = k
    · simp [List.lookup_cons, h]
    · have : (k2 == k) = false := by simpa using h
      simp [List.lookup_cons, h, this]
  | cons kv rest ih =>
    obtain ⟨a, b⟩ := kv
    by_cases h2 : k2 = a
    · simp [List.lookup_cons, h2]
    · have : (k2 == a) = false := by simpa using h2
      rw [List.cons_append, List.lookup_cons, List.lookup_cons, this, ih]

theorem Header.Get_Set_self (h : Header) (k v : String) : (h.Set k v).Get k = v := by
  simp only [Header.Set, Header.Get, lookup_append_single, lookup_filter_ne]
  simp

theorem Header.Get_Set_of_ne (h : Header) (k v k2 : String) (hk : k2 ≠ k) :
    (h.Set k v).Get k2 = h.Get k2 := by
  simp only [Header.Set, Header.Get, lookup_append_single, lookup_filter_ne, if_neg hk]
  cases List.lookup k2 h.Fields <;> simp

theorem Header.Has_Set_of_ne (h : Header) (k v k2 : String) (hk : k2 ≠ k) :
    (h.Set k v).Has k2 = h.Has k2 := by
  simp only [Header.Set, Header.Has, lookup_append_single, lookup_filter_ne, if_neg hk]
  cases List.lookup k2 h.Fields <;> simp

theorem Header.Has_Del_of_ne (h : Header) (k k2 : String) (hk : k2 ≠ k) :
    (h.Del k).Has k2 = h.Has k2 := by
  simp only [Header.Del, Header.Has, lookup_filter_ne, if_neg hk]

theorem Header.Has_Set_self (h : Header) (k v : String) : (h.Set k v).Has k = true := by
  simp only [Header.Set, Header.Has, lookup_append_single, lookup_filter_ne]
  simp

theorem Header.SetCookie_Set (h : Header) (k v : String) :
    (h.Set k v).SetCookie = h.SetCookie := rfl

theorem Header.SetCookie_Del (h : Header) (k : String) :
    (h.Del k).SetCookie = h.SetCookie := rfl

theorem WriteHeader_fresh (w : ResponseWriter) (code : Nat) (hw : w.wroteHeader = false) :
    w.WriteHeader code =
      { w with wroteHeader := true, status := code, sentHeader := w.handlerHeader } := by
  simp [ResponseWriter.WriteHeader, hw]

theorem WriteHeader_wrote (w : ResponseWriter) (code : Nat) (hw : w.wroteHeader = true) :
    w.WriteHeader code = w := by
  simp [ResponseWriter.WriteHeader, hw]

theorem Write_wrote (w : ResponseWriter) (data : List UInt8) (hw : w.wroteHeader = true) :
    w.Write data =
      if w.broken then (w, true) else ({ w with body := w.body ++ data }, false) := by
  simp [ResponseWriter.Write, WriteHeader_wrote w 200 hw]

theorem Fprintln_wrote (w : ResponseWriter) (s : String) (hw : w.wroteHeader = true) :
    (w.Fprintln s).wroteHeader = true ∧ (w.Fprintln s).status = w.status ∧
      (w.Fprintln s).sentHeader = w.sentHeader ∧
      (w.Fprintln s).handlerHeader = w.handlerHeader ∧
      (w.Fprintln s).broken = w.broken ∧
      (w.Fprintln s).body = if w.broken then w.body else w.body ++ bytes (s ++ "\n") := by
  rw [ResponseWriter.Fprintln, Write_wrote w _ hw]
  cases hb : w.broken <;> simp [hw, hb]

theorem response_wrote (w : ResponseWriter) (hw : w.wroteHeader = true) :
    w.response = { status := w.status, header := w.sentHeader, body := w.body } := by
  simp [ResponseWriter.response, WriteHeader_wrote w 200 hw]

/-- A writer that has not written yet, given the header map `h` and then
committed with `code`, with or without a line of text after it. -/
theorem commit_response (w : ResponseWriter) (h : Header) (code : Nat) (line : Option String)
    (hw : w.wroteHeader = false) :
    (match line with
      | none => ({ w with handlerHeader := h } : ResponseWriter).WriteHeader code
      | some s => (({ w with handlerHeader := h } : ResponseWriter).WriteHeader code).Fprintln s
      ).response =
    { status := code, header := h,
      body := match line with
        | none => w.body
        | some s => if w.broken then w.body else w.body ++ bytes (s ++ "\n") } := by
  have hfresh : ({ w with handlerHeader := h } : ResponseWriter).wroteHeader = false := hw
  rw [WriteHeader_fresh _ code hfresh]
  cases line with
  | none => simp only []; rw [response_wrote _ rfl]
  | some s =>
    simp only []
    obtain ⟨f1, f2, f3, -, -, f6⟩ := Fprintln_wrote
      ({ w with handlerHeader := h, wroteHeader := true, status := code, sentHeader := h }) s rfl
    rw [response_wrote _ f1, f2, f3, f6]

/-- The response of `http.Redirect` on a writer that has not written yet:
the given status, the target in `Location`, and the cookies set before. -/
theorem Redirect_response (w : ResponseWriter) (r : Request) (url : String) (code : Nat)
    (hw : w.wroteHeader = false) :
    (Redirect w r url code).response.status = code ∧
      (Redirect w r url code).response.header.Get "Location" = url ∧
      (Redirect w r url code).response.header.SetCookie = w.handlerHeader.SetCookie := by
  have hne : ("Location" : String) ≠ "Content-Type" := by decide
  unfold Redirect
  simp only []
  by_cases hct : (!w.handlerHeader.Has "Content-Type" && (r.Method = "GET" || r.Method = "HEAD")) = true
  · simp only [hct, if_true]
    by_cases hb : (!w.handlerHeader.Has "Content-Type" && decide (r.Method = "GET")) = true
    · simp only [hb, if_true]
      rw [commit_response w _ code (some _) hw]
      exact ⟨rfl, by simp only [Header.Get_Set_of_ne _ _ _ _ hne, Header.Get_Set_self], rfl⟩
    · simp only [hb, Bool.false_eq_true, if_false]
      rw [commit_response w _ code none hw]
      exact ⟨rfl, by simp only [Header.Get_Set_of_ne _ _ _ _ hne, Header.Get_Set_self], rfl⟩
  · simp only [hct, Bool.false_eq_true, if_false]
    by_cases hb : (!w.handlerHeader.Has "Content-Type" && decide (r.Method = "GET")) = true
    · simp only [hb, if_true]
      rw [commit_response w _ code (some _) hw]
      exact ⟨rfl, by simp only [Header.Get_Set_self], rfl⟩
    · simp only [hb, Bool.false_eq_true, if_false]
      rw [commit_response w _ code none hw]
      exact ⟨rfl, by simp only [Header.Get_Set_self], rfl⟩

/-- The response of `http.Error` on a writer that has not written yet: the
given status, the cookies set before, no `Location` unless one was set
before, and the message as the body. -/
theorem Error_response (w : ResponseWriter) (error : String) (code : Nat)
    (hw : w.wroteHeader = false) :
    (Error w error code).response.status = code ∧
      (Error w error code).response.header.SetCookie = w.handlerHeader.SetCookie ∧
      (Error w error code).response.header.Has "Location" = w.handlerHeader.Has "Location" ∧
      (Error w error code).response.body =
        if w.broken then w.body else w.body ++ bytes (error ++ "\n") := by
  unfold Error
  simp only []
  rw [commit_response w _ code (some error) hw]
  refine ⟨rfl, rfl, ?_, rfl⟩
  simp only []
  rw [Header.Has_Set_of_ne _ _ _ _ (by decide), Header.Has_Set_of_ne _ _ _ _ (by decide),
    Header.Has_Del_of_ne _ _ _ (by decide)]

theorem Write_fresh (w : ResponseWriter) (data : List UInt8) (hw : w.wroteHeader = false) :
    (w.Write data).1.wroteHeader = true ∧ (w.Write data).1.status = 200 ∧
      (w.Write data).1.sentHeader = w.handlerHeader ∧
      (w.Write data).1.handlerHeader = w.handlerHeader ∧
      (w.Write data).1.body = (if w.broken then w.body else w.body ++ data) ∧
      (w.Write data).2 = w.broken := by
  rw [ResponseWriter.Write]
  simp only [WriteHeader_fresh w 200 hw]
  cases hb : w.broken <;> simp [hb]

theorem Error_wrote (w : ResponseWriter) (error : String) (code : Nat)
    (hw : w.wroteHeader = true) :
    (Error w error code).wroteHeader = true ∧ (Error w error code).status = w.status ∧
      (Error w error code).sentHeader = w.sentHeader ∧
      (Error w error code).body =
        if w.broken then w.body else w.body ++ bytes (error ++ "\n") := by
  unfold Error
  simp only []
  generalize ((w.handlerHeader.Del "Content-Length").Set
    "Content-Type" "text/plain; charset=utf-8").Set "X-Content-Type-Options" "nosniff" = h
  have hw2 : ({ w with handlerHeader := h } : ResponseWriter).wroteHeader = true := hw
  rw [WriteHeader_wrote _ code hw2]
  obtain ⟨f1, f2, f3, -, -, f6⟩ := Fprintln_wrote ({ w with handlerHeader := h }) error hw2
  exact ⟨f1, f2, f3, f6⟩

theorem Error_wroteHeader (w : ResponseWriter) (error : String) (code : Nat) :
    (Error w error code).wroteHeader = true := by
  cases hw : w.wroteHeader
  · unfold Error
    simp only []
    generalize ((w.handlerHeader.Del "Content-Length").Set
      "Content-Type" "text/plain; charset=utf-8").Set "X-Content-Type-Options" "nosniff" = h
    have hfresh : ({ w with handlerHeader := h } : ResponseWriter).wroteHeader = false := hw
    rw [WriteHeader_fresh _ code hfresh]
    exact (Fprintln_wrote _ error rfl).1
  · exact (Error_wrote w error code hw).1

/-- After the header was written, `http.Redirect` changes neither the status
nor the header that was sent. -/
theorem Redirect_wrote (w : ResponseWriter) (r : Request) (url : String) (code : Nat)
    (hw : w.wroteHeader = true) :
    (Redirect w r url code).response.status = w.status ∧
      (Redirect w r url code).response.header = w.sentHeader := by
  unfold Redirect
  simp only []
  generalize (if (!w.handlerHeader.Has "Content-Type" &&
      (decide (r.Method = "GET") || decide (r.Method = "HEAD"))) = true then
      (w.handlerHeader.Set "Location" url).Set "Content-Type" "text/html; charset=utf-8"
    else w.handlerHeader.Set "Location" url) = h
  have hw2 : ({ w with handlerHeader := h } : ResponseWriter).wroteHeader = true := hw
  rw [WriteHeader_wrote _ code hw2]
  split
  · obtain ⟨f1, f2, f3, -, -, -⟩ := Fprintln_wrote ({ w with handlerHeader := h })
      ("<a href=\"" ++ htmlEscape url ++ "\">" ++ StatusText code ++ "</a>.\n") hw2
    rw [response_wrote _ f1, f2, f3]
    exact ⟨rfl, rfl⟩
  · rw [response_wrote _ hw2]
    exact ⟨rfl, rfl⟩

/-- The response when `http.Redirect` follows `http.Error` on a writer that
had not written: the one of the error. -/
theorem Redirect_after_Error (w : ResponseWriter) (r : Request) (error url : String)
    (code code2 : Nat) (hw : w.wroteHeader = false) :
    (Redirect (Error w error code) r url code2).response.status = code ∧
      (Redirect (Error w error code) r url code2).response.header.Has "Location" =
        w.handlerHeader.Has "Location" := by
  have hwrote := Error_wroteHeader w error code
  obtain ⟨e1, -, e3, -⟩ := Error_response w error code hw
  rw [response_wrote _ hwrote] at e1 e3
  obtain ⟨r1, r2⟩ := Redirect_wrote (Error w error code) r url code2 hwrote
  rw [r1, r2]
  exact ⟨e1, e3⟩

/-! ## Lemmas on cookies -/

theorem filter_valid_eq_self (cs : List Char) (h : ∀ c ∈ cs, validCookieValueByte c = true) :
    cs.filter validCookieValueByte = cs :=
  List.filter_eq_self.2 h

theorem sanitize_of_valid (v : String) (hne : v.data ≠ [])
    (hv : ∀ c ∈ v.data, validCookieValueByte c = true) :
    sanitizeCookieValue v =
      if v.data.any (fun c => c = ' ' || c = ',') then "\"" ++ v ++ "\"" else v := by
  unfold sanitizeCookieValue
  simp only []
  rw [filter_valid_eq_self v.data hv]
  show (if v.data = [] then v
    else if v.data.any (fun c => c = ' ' || c = ',') then "\"" ++ v ++ "\"" else v) = _
  rw [if_neg hne]

theorem parse_quoted (v : String) (hv : ∀ c ∈ v.data, validCookieValueByte c = true) :
    parseCookieValue ("\"" ++ v ++ "\"") = some v := by
  have hall : v.data.all validCookieValueByte = true := List.all_eq_true.2 hv
  have hd : ("\"" ++ v ++ "\"").data = '"' :: (v.data ++ ['"']) := by
    simp [String.data_append]
  have hcond : 1 < ('"' :: (v.data ++ ['"'])).length ∧
      ('"' :: (v.data ++ ['"'])).head? = some '"' ∧
      ('"' :: (v.data ++ ['"'])).getLast? = some '"' := by
    refine ⟨by simp, rfl, ?_⟩
    rw [← List.cons_append, List.getLast?_append]
    simp
  have hstrip : (List.drop 1 ('"' :: (v.data ++ ['"']))).dropLast = v.data := by
    simp [List.dropLast_concat]
  simp only [parseCookieValue, hd]
  rw [if_pos hcond, hstrip, hall]
  simp

theorem parse_plain (v : String) (hne : v.data ≠ [])
    (hv : ∀ c ∈ v.data, validCookieValueByte c = true) :
    parseCookieValue v = some v := by
  have hall : v.data.all validCookieValueByte = true := List.all_eq_true.2 hv
  have hcond : ¬ (1 < v.data.length ∧ v.data.head? = some '"' ∧
      v.data.getLast? = some '"') := by
    rintro ⟨-, hh, -⟩
    cases hd : v.data with
    | nil => exact hne hd
    | cons c cs =>
      rw [hd] at hh
      simp at hh
      have := hv c (by rw [hd]; exact List.mem_cons_self _ _)
      rw [hh] at this
      exact absurd this (by decide)
  simp only [parseCookieValue]
  rw [if_neg hcond, hall]
  simp

/-- A value made of valid bytes comes back from the `Cookie` header as it
was handed to `http.SetCookie`. -/
theorem parse_sanitize (v : String) (hne : v.data ≠ [])
    (hv : ∀ c ∈ v.data, validCookieValueByte c = true) :
    parseCookieValue (sanitizeCookieValue v) = some v := by
  rw [sanitize_of_valid v hne hv]
  split
  · exact parse_quoted v hv
  · exact parse_plain v hne hv

theorem token_valid (u p : String)
    (hu : ∀ c ∈ u.data, c ≠ ':' ∧ validCookieValueByte c = true)
    (hp : ∀ c ∈ p.data, c ≠ ':' ∧ validCookieValueByte c = true) :
    (u ++ ":" ++ p).data ≠ [] ∧ ∀ c ∈ (u ++ ":" ++ p).data, validCookieValueByte c = true := by
  have hd : (u ++ ":" ++ p).data = u.data ++ ':' :: p.data := by
    simp [String.data_append]
  rw [hd]
  refine ⟨by simp, fun c hc => ?_⟩
  rcases List.mem_append.1 hc with h | h
  · exact (hu c h).2
  · rcases List.mem_cons.1 h with h | h
    · rw [h]; decide
    · exact (hp c h).2

/-! ## Lemmas on the storage directory -/

theorem FS.node_store_self (fs : FS) (path : String) (data : List UInt8) :
    (fs.store path data).node path = some (Node.file data) := by
  simp [FS.store, FS.node, List.lookup_cons]

theorem FS.lookup_store_self (fs : FS) (path : String) (data : List UInt8) :
    (fs.store path data).lookup path = some data := by
  simp only [FS.lookup, FS.node_store_self]

theorem FS.node_erase_self (fs : FS) (path : String) :
    (fs.erase path).node path = none := by
  simp only [FS.erase, FS.node, lookup_filter_ne, if_true]

theorem FS.lookup_erase_self (fs : FS) (path : String) :
    (fs.erase path).lookup path = none := by
  simp only [FS.lookup, FS.node_erase_self]

theorem FS.node_of_lookup (fs : FS) (path : String) (data : List UInt8)
    (h : fs.lookup path = some data) : fs.node path = some (Node.file data) := by
  unfold FS.lookup at h
  cases hn : fs.node path with
  | none => rw [hn] at h; simp at h
  | some n =>
    rw [hn] at h
    cases n with
    | file d => simp at h; rw [h]
    | dir => simp at h

theorem FS.canRemove_of_node_none (fs : FS) (path : String) (h : fs.node path = none) :
    fs.canRemove path = false := by
  simp [FS.canRemove, h]

theorem FS.node_isSome_of_canRemove (fs : FS) (path : String) (h : fs.canRemove path = true) :
    (fs.node path).isSome = true := by
  cases hn : fs.node path with
  | none => rw [FS.canRemove_of_node_none fs path hn] at h; exact absurd h (by decide)
  | some n => rfl

theorem FS.store_store (fs : FS) (path : String) (d1 d2 : List UInt8) :
    (fs.store path d1).store path d2 = fs.store path d2 := by
  simp [FS.store, List.filter_cons, List.filter_filter]

/-- A successful upload: what `uploadHandler` returns when the method is
POST, the file is there, `os.Create` succeeds, the disk has room and the
stream ends without error. -/
theorem uploadHandler_stored (g : Globals) (w : ResponseWriter) (r : Request) (world : World)
    (file : Upload) (hm : r.Method = "POST") (hfile : r.FormFile "file" = some file)
    (hcreate : world.fs.creatable (Join g.config.FileDir file.Filename) = true)
    (hspace : world.fs.noSpace = false) (herr : file.Err = false) :
    uploadHandler g w r world =
      (Redirect w r "/" 302,
        { fs := world.fs.store (Join g.config.FileDir file.Filename) file.Data
          trace := world.trace ++ [Event.osCreate (Join g.config.FileDir file.Filename)] }) := by
  simp [uploadHandler, hm, hfile, World.Create, World.Copy, World.emit, hcreate, hspace, herr,
    FS.lookup_store_self, FS.store_store]
  simp [FS.store, hspace]

theorem deleteHandler_removed (g : Globals) (w : ResponseWriter) (r : Request) (world : World)
    (hm : r.Method = "POST")
    (hex : world.fs.canRemove (Join g.config.FileDir (r.FormValue "filename")) = true) :
    deleteHandler g w r world =
      (Redirect w r "/" 302,
        { fs := world.fs.erase (Join g.config.FileDir (r.FormValue "filename"))
          trace := world.trace ++
            [Event.osRemove (Join g.config.FileDir (r.FormValue "filename"))] }) := by
  simp [deleteHandler, hm, World.Remove, World.emit, hex]

theorem deleteHandler_refused (g : Globals) (w : ResponseWriter) (r : Request) (world : World)
    (hm : r.Method = "POST")
    (hex : world.fs.canRemove (Join g.config.FileDir (r.FormValue "filename")) = false) :
    deleteHandler g w r world =
      (Error w "Failed to delete file" 500,
        { fs := world.fs
          trace := world.trace ++
            [Event.osRemove (Join g.config.FileDir (r.FormValue "filename"))] }) := by
  simp [deleteHandler, hm, World.Remove, World.emit, hex]

theorem downloadHandler_missing (g : Globals) (w : ResponseWriter) (r : Request) (world : World)
    (hex : world.fs.node (Join g.config.FileDir (r.QueryGet "filename")) = none) :
    downloadHandler g w r world =
      (Error w "File not found" 404,
        world.emit (Event.osOpen (Join g.config.FileDir (r.QueryGet "filename")))) := by
  simp [downloadHandler, World.Open, hex]

theorem downloadHandler_found (g : Globals) (w : ResponseWriter) (r : Request) (world : World)
    (data : List UInt8)
    (hex : world.fs.lookup (Join g.config.FileDir (r.QueryGet "filename")) = some data)
    (hw : w.wroteHeader = false) (hconn : w.broken = false) :
    (downloadHandler g w r world).1.response =
      { status := 200
        header := (w.handlerHeader.Set "Content-Disposition"
          ("attachment; filename=\"" ++ r.QueryGet "filename" ++ "\"")).Set
            "Content-Type" "application/octet-stream"
        body := w.body ++ data } := by
  simp only [downloadHandler, World.Open, FS.node_of_lookup _ _ _ hex, copyFileToResponse,
    copyToResponse]
  by_cases hd : data = []
  · simp [hd, ResponseWriter.response, ResponseWriter.WriteHeader, hw]
  · simp [hd, ResponseWriter.response, ResponseWriter.WriteHeader, ResponseWriter.Write, hw,
      hconn]

/-! ## Lemmas on paths -/

/-- Over elements none of which is "..", the loop of `Clean` only appends:
it keeps the elements other than "" and ".", in order. -/
theorem foldl_cleanStep_of_no_dotdot (rooted : Bool) (es out : List String)
    (h : ∀ e ∈ es, e ≠ "..") :
    es.foldl (cleanStep rooted) out =
      (es.filter (fun e => decide (e ≠ "" ∧ e ≠ "."))).reverse ++ out := by
  induction es generalizing out with
  | nil => simp
  | cons e rest ih =>
    have hrest : ∀ x ∈ rest, x ≠ ".." := fun x hx => h x (List.mem_cons_of_mem _ hx)
    have he : e ≠ ".." := h e (List.mem_cons_self _ _)
    rw [List.foldl_cons, ih _ hrest, List.filter_cons]
    by_cases hskip : e = "" ∨ e = "."
    · have hd : decide (e ≠ "" ∧ e ≠ ".") = false := by
        rw [decide_eq_false_iff_not]; tauto
      simp only [cleanStep, if_pos hskip, hd]
      simp
    · have hd : decide (e ≠ "" ∧ e ≠ ".") = true := by
        rw [decide_eq_true_iff]; tauto
      simp only [cleanStep, if_neg hskip, if_neg he, hd, if_true]
      simp

theorem joinStrings_pair (a b : String) : joinStrings [a, b] "/" = a ++ "/" ++ b := by
  simp [joinStrings, String.intercalate, String.intercalate.go]

theorem data_ne_nil_of_ne_empty (a : String) (h : a ≠ "") : a.data ≠ [] :=
  fun e => h (String.ext e)

/-- The lexical pass of `Clean` over `root/name`, for a root that is not
empty and a name without ".." elements: the outcome for the root, followed
by the elements of the name other than "" and ".". -/
theorem cleanParts_child (root name : String) (hroot : root ≠ "")
    (h : ∀ e ∈ Split name '/', e ≠ "..") :
    cleanParts (root ++ "/" ++ name) =
      { rooted := (cleanParts root).rooted
        elems := (cleanParts root).elems ++
          (Split name '/').filter (fun e => decide (e ≠ "" ∧ e ≠ ".")) } := by
  have hsplit : Split (root ++ "/" ++ name) '/' = Split root '/' ++ Split name '/' :=
    Split_append_sep root name '/'
  have hhead : (root ++ "/" ++ name).data.head? = root.data.head? := by
    have hne := data_ne_nil_of_ne_empty root hroot
    cases hd : root.data with
    | nil => exact absurd hd hne
    | cons c cs => simp [String.data_append, hd]
  simp only [cleanParts, hsplit, hhead, List.foldl_append]
  rw [foldl_cleanStep_of_no_dotdot _ _ _ h]
  simp

/-- The lexical pass of `Clean` over a single plain element. -/
theorem cleanParts_plain (name : String) (hne : name ≠ "") (hdot : name ≠ ".")
    (hdd : name ≠ "..") (hsep : '/' ∉ name.data) :
    cleanParts name = { rooted := false, elems := [name] } := by
  have hhead : ¬ name.data.head? = some '/' := by
    intro e
    cases hd : name.data with
    | nil => rw [hd] at e; simp at e
    | cons c cs =>
      rw [hd] at e
      simp at e
      exact hsep (by rw [hd, e]; exact List.mem_cons_self _ _)
  simp only [cleanParts, Split_of_not_mem name '/' hsep, List.foldl_cons, List.foldl_nil]
  simp [cleanStep, hne, hdot, hdd, hhead]

theorem downloadHandler_trace (g : Globals) (w : ResponseWriter) (r : Request) (world : World) :
    (downloadHandler g w r world).2.trace =
      world.trace ++ [Event.osOpen (Join g.config.FileDir (r.QueryGet "filename"))] := by
  simp only [downloadHandler, World.Open]
  cases world.fs.node (Join g.config.FileDir (r.QueryGet "filename")) with
  | none => rfl
  | some file =>
    simp only []
    split <;> rfl

theorem deleteHandler_trace (g : Globals) (w : ResponseWriter) (r : Request) (world : World)
    (hm : r.Method = "POST") :
    (deleteHandler g w r world).2.trace =
      world.trace ++ [Event.osRemove (Join g.config.FileDir (r.FormValue "filename"))] := by
  cases hex : world.fs.canRemove (Join g.config.FileDir (r.FormValue "filename")) with
  | false => rw [deleteHandler_refused g w r world hm hex]
  | true => rw [deleteHandler_removed g w r world hm hex]

/-! ## Lemmas on the main page -/

theorem renderMainPage_world (g : Globals) (w : ResponseWriter) (r : Request) (world : World) :
    (renderMainPage g w r world).2 =
      (world.emit (Event.osReadDir g.config.FileDir)).emit
        (Event.executeTemplate "main.html"
          { IsAuthorized := isAuthorized g r, Files := (world.ReadDir g.config.FileDir).2 }) := by
  unfold renderMainPage
  simp only [World.ReadDir]
  split <;> rfl

theorem renderMainPage_cookies (g : Globals) (w : ResponseWriter) (r : Request) (world : World)
    (hw : w.wroteHeader = false) :
    (renderMainPage g w r world).1.response.header.SetCookie = w.handlerHeader.SetCookie := by
  unfold renderMainPage
  simp only [ExecuteTemplate, copyToResponse]
  by_cases hout : (g.templates "main.html"
      { IsAuthorized := isAuthorized g r, Files := (world.ReadDir g.config.FileDir).2 }).1 = []
  · simp only [hout, if_true, Bool.false_or]
    split
    · exact (Error_response w _ 500 hw).2.1
    · simp [ResponseWriter.response, WriteHeader_fresh w 200 hw]
  · simp only [hout, if_false]
    obtain ⟨f1, -, f3, -, -, -⟩ := Write_fresh w (g.templates "main.html"
      { IsAuthorized := isAuthorized g r, Files := (world.ReadDir g.config.FileDir).2 }).1 hw
    split
    · obtain ⟨e1, -, e3, -⟩ := Error_wrote _ "Failed to render page" 500 f1
      rw [response_wrote _ e1]
      simp only [e3, f3]
    · rw [response_wrote _ f1]
      simp only [f3]

theorem mainPageHandler_login (g : Globals) (w : ResponseWriter) (r : Request) (world : World)
    (hm : r.Method = "POST")
    (hv : validateCredentials g.userStore (r.FormValue "username") (r.FormValue "password") = true) :
    mainPageHandler g w r world =
      renderMainPage g
        (SetCookie w { Name := "auth",
                       Value := r.FormValue "username" ++ ":" ++ r.FormValue "password",
                       Path := "/", MaxAge := 0 }) r world := by
  simp [mainPageHandler, hm, hv]

theorem isAuthorized_of_token (g : Globals) (r : Request) (c : Cookie) (u p : String)
    (hc : r.Cookie "auth" = some c) (hval : c.Value = u ++ ":" ++ p)
    (hu : ':' ∉ u.data) (hp : ':' ∉ p.data)
    (hv : validateCredentials g.userStore u p = true) :
    isAuthorized g r = true := by
  have hs : Split c.Value ':' = [u, p] := by
    rw [hval]
    have h := Split_append_sep u p ':'
    rw [Split_of_not_mem u ':' hu, Split_of_not_mem p ':' hp] at h
    exact h
  simp [isAuthorized, hc, hs, hv]

theorem authMiddleware_of_token (g : Globals) (next : HandlerFunc) (w : ResponseWriter)
    (r : Request) (world : World) (c : Cookie) (u p : String)
    (hc : r.Cookie "auth" = some c) (hval : c.Value = u ++ ":" ++ p)
    (hu : ':' ∉ u.data) (hp : ':' ∉ p.data)
    (hv : validateCredentials g.userStore u p = true) :
    authMiddleware g next w r world = next w r world := by
  have hs : Split c.Value ':' = [u, p] := by
    rw [hval]
    have h := Split_append_sep u p ':'
    rw [Split_of_not_mem u ':' hu, Split_of_not_mem p ':' hp] at h
    exact h
  simp [authMiddleware, hc, hs, hv]

/-! ## Credential store -/

/-- C2: `validateCredentials` returns `true` exactly when some record of the
store has this username and this password; hence the answer is the same for
any two stores with the same records, whatever their order or repetitions. -/
theorem validateCredentials_iff_mem (userStore : UserStore) (u p : String) :
    (validateCredentials userStore u p = true ↔
      ∃ user ∈ userStore.Users, user.Username = u ∧ user.Password = p) ∧
    (∀ other : UserStore, (∀ user, user ∈ other.Users ↔ user ∈ userStore.Users) →
      validateCredentials other u p = validateCredentials userStore u p) := by
  have key : ∀ st : UserStore, validateCredentials st u p = true ↔
      ∃ user ∈ st.Users, user.Username = u ∧ user.Password = p :=
    fun st => validateCredentials_loop_iff st.Users u p
  refine ⟨key userStore, fun other hmem => ?_⟩
  have h : validateCredentials other u p = true ↔ validateCredentials userStore u p = true := by
    rw [key, key]
    constructor
    · rintro ⟨user, hin, hrest⟩; exact ⟨user, (hmem user).1 hin, hrest⟩
    · rintro ⟨user, hin, hrest⟩; exact ⟨user, (hmem user).2 hin, hrest⟩
  cases h1 : validateCredentials other u p <;> cases h2 : validateCredentials userStore u p <;>
    simp_all

/-! ## Session token -/

/-- C3: for a username and a password without ':', splitting the token
`u + ":" + p` on ':' gives exactly the two parts `u` and `p`, in this order. -/
theorem Split_token_roundtrip (u p : String) (hu : ':' ∉ u.data) (hp : ':' ∉ p.data) :
    Split (u ++ ":" ++ p) ':' = [u, p] := by
  have h := Split_append_sep u p ':'
  rw [Split_of_not_mem u ':' hu, Split_of_not_mem p ':' hp] at h
  exact h

/-- C3 at the pair alice / secret1. -/
theorem Split_token_roundtrip_witness :
    Split ("alice" ++ ":" ++ "secret1") ':' = ["alice", "secret1"] :=
  Split_token_roundtrip "alice" "secret1" (by decide) (by decide)

/-! ## Authorization gate -/

/-- C1: on a fresh writer, `authMiddleware` either runs the wrapped handler,
and then the request carries an `auth` cookie whose value splits on ':' into
exactly two parts that `validateCredentials` accepts; or there is no such
cookie, and then the outcome is the 302 redirect to "/" with one log line,
whatever the wrapped handler is. -/
theorem authMiddleware_gate (g : Globals) (next : HandlerFunc) (w : ResponseWriter)
    (r : Request) (world : World) (hw : w.wroteHeader = false) :
    ((∃ cookie u p, r.Cookie "auth" = some cookie ∧ Split cookie.Value ':' = [u, p] ∧
          validateCredentials g.userStore u p = true) ∧
        authMiddleware g next w r world = next w r world) ∨
    ((¬ ∃ cookie u p, r.Cookie "auth" = some cookie ∧ Split cookie.Value ':' = [u, p] ∧
          validateCredentials g.userStore u p = true) ∧
        (∃ msg ∈ ["Unauthorized access attempt: " ++ r.RemoteAddr,
                  "Invalid cookie or credentials: " ++ r.RemoteAddr],
          ∀ other : HandlerFunc,
            authMiddleware g other w r world = (Redirect w r "/" 302, world.Printf msg)) ∧
        (Redirect w r "/" 302).response.status = 302 ∧
        (Redirect w r "/" 302).response.header.Get "Location" = "/") := by
  obtain ⟨hs, hl, -⟩ := Redirect_response w r "/" 302 hw
  cases hc : r.Cookie "auth" with
  | none =>
    right
    refine ⟨?_, ⟨_, List.mem_cons_self _ _, fun other => ?_⟩, hs, hl⟩
    · rintro ⟨cookie, u, p, h, -⟩; exact absurd h (by simp)
    · simp [authMiddleware, hc]
  | some cookie =>
    by_cases hlen : (Split cookie.Value ':').length = 2
    · obtain ⟨a, b, hab⟩ := List.length_eq_two.mp hlen
      by_cases hv : validateCredentials g.userStore a b = true
      · left
        refine ⟨⟨cookie, a, b, rfl, hab, hv⟩, ?_⟩
        simp [authMiddleware, hc, hab, hv]
      · right
        refine ⟨?_, ⟨_, List.mem_cons_of_mem _ (List.mem_cons_self _ _), fun other => ?_⟩, hs, hl⟩
        · rintro ⟨cookie2, u, p, h1, h2, h3⟩
          have e : cookie2 = cookie := by simpa using h1.symm
          subst e
          rw [hab] at h2
          injection h2 with e1 e2
          injection e2 with e2 _
          subst e1; subst e2
          exact hv h3
        · simp [authMiddleware, hc, hab, hv]
    · right
      refine ⟨?_, ⟨_, List.mem_cons_of_mem _ (List.mem_cons_self _ _), fun other => ?_⟩, hs, hl⟩
      · rintro ⟨cookie2, u, p, h1, h2, -⟩
        have e : cookie2 = cookie := by simpa using h1.symm
        subst e
        rw [h2] at hlen
        exact hlen rfl
      · simp [authMiddleware, hc, hlen]

/-- The gate lets the session of alice through: the marking handler runs. -/
theorem authMiddleware_allows_alice :
    (authMiddleware sampleGlobals markHandler ResponseWriter.new
        (requestWithAuth "alice:secret1") (worldOf [])).2.trace = [Event.log "next"] ∧
    (authMiddleware sampleGlobals markHandler ResponseWriter.new
        (requestWithAuth "alice:secret") (worldOf [])).2.trace =
      [Event.log "Invalid cookie or credentials: 10.0.0.7:40000"] := by
  decide

/-- C1 at a request without cookies: the gate redirects and the marking
handler leaves no mark. -/
theorem authMiddleware_gate_witness :
    ((∃ cookie u p, (bareRequest "GET").Cookie "auth" = some cookie ∧
          Split cookie.Value ':' = [u, p] ∧
          validateCredentials sampleGlobals.userStore u p = true) ∧
        authMiddleware sampleGlobals markHandler ResponseWriter.new (bareRequest "GET")
          (worldOf []) = markHandler ResponseWriter.new (bareRequest "GET") (worldOf [])) ∨
    ((¬ ∃ cookie u p, (bareRequest "GET").Cookie "auth" = some cookie ∧
          Split cookie.Value ':' = [u, p] ∧
          validateCredentials sampleGlobals.userStore u p = true) ∧
        (∃ msg ∈ ["Unauthorized access attempt: " ++ (bareRequest "GET").RemoteAddr,
                  "Invalid cookie or credentials: " ++ (bareRequest "GET").RemoteAddr],
          ∀ other : HandlerFunc,
            authMiddleware sampleGlobals other ResponseWriter.new (bareRequest "GET")
              (worldOf []) =
              (Redirect ResponseWriter.new (bareRequest "GET") "/" 302,
                (worldOf []).Printf msg)) ∧
        (Redirect ResponseWriter.new (bareRequest "GET") "/" 302).response.status = 302 ∧
        (Redirect ResponseWriter.new (bareRequest "GET") "/" 302).response.header.Get
          "Location" = "/") :=
  authMiddleware_gate sampleGlobals markHandler ResponseWriter.new (bareRequest "GET")
    (worldOf []) rfl

/-! ## Login (`POST /`) -/

/-- C4: the login of alice / secret1 on a request that carries no cookie sets
the cookie `auth` = "alice:secret1" with path "/", yet the template receives
`IsAuthorized = false` and the page written is the login page: the flag is
read from the cookie of the request, not from the login that just
succeeded. -/
theorem mainPageHandler_login_renders_unauthorized :
    validateCredentials sampleGlobals.userStore "alice" "secret1" = true ∧
    (mainPageHandler sampleGlobals ResponseWriter.new (loginRequest "alice" "secret1")
        (worldOf [])).1.response =
      { status := 200
        header := { Fields := [],
                    SetCookie := [{ Name := "auth", Value := "alice:secret1", Path := "/",
                                    MaxAge := 0 }] }
        body := bytes "login" } ∧
    (mainPageHandler sampleGlobals ResponseWriter.new (loginRequest "alice" "secret1")
        (worldOf [])).2.trace =
      [Event.osReadDir "files",
       Event.executeTemplate "main.html" { IsAuthorized := false, Files := [] }] := by
  decide

/-- C5: a `POST /` whose form fields match no record of the store gets
status 401 with the body "Invalid credentials", no cookie is added, and the
handler returns at once: the world, with its trace of directory reads and
template executions, is the one it started from. -/
theorem mainPageHandler_login_rejected (g : Globals) (w : ResponseWriter) (r : Request)
    (world : World) (hw : w.wroteHeader = false) (hm : r.Method = "POST")
    (hno : ¬ ∃ user ∈ g.userStore.Users,
      user.Username = r.FormValue "username" ∧ user.Password = r.FormValue "password") :
    mainPageHandler g w r world = (Error w "Invalid credentials" 401, world) ∧
      (mainPageHandler g w r world).1.response.status = 401 ∧
      (mainPageHandler g w r world).1.response.header.SetCookie = w.handlerHeader.SetCookie ∧
      (mainPageHandler g w r world).1.response.body =
        (if w.broken then w.body else w.body ++ bytes "Invalid credentials\n") ∧
      (mainPageHandler g w r world).2 = world := by
  have hv : validateCredentials g.userStore (r.FormValue "username")
      (r.FormValue "password") = false := by
    cases h : validateCredentials g.userStore (r.FormValue "username") (r.FormValue "password")
    · rfl
    · exact absurd ((validateCredentials_loop_iff _ _ _).1 h) hno
  have e : mainPageHandler g w r world = (Error w "Invalid credentials" 401, world) := by
    simp [mainPageHandler, hm, hv]
  obtain ⟨h1, h2, -, h4⟩ := Error_response w "Invalid credentials" 401 hw
  rw [e]
  exact ⟨rfl, h1, h2, h4, rfl⟩

/-- C5 at the login alice / wrong against the store with alice / secret1. -/
theorem mainPageHandler_login_rejected_witness :
    mainPageHandler sampleGlobals ResponseWriter.new (loginRequest "alice" "wrong") (worldOf []) =
        (Error ResponseWriter.new "Invalid credentials" 401, worldOf []) ∧
      (mainPageHandler sampleGlobals ResponseWriter.new (loginRequest "alice" "wrong")
        (worldOf [])).1.response.status = 401 ∧
      (mainPageHandler sampleGlobals ResponseWriter.new (loginRequest "alice" "wrong")
        (worldOf [])).1.response.header.SetCookie = ResponseWriter.new.handlerHeader.SetCookie ∧
      (mainPageHandler sampleGlobals ResponseWriter.new (loginRequest "alice" "wrong")
        (worldOf [])).1.response.body =
        (if ResponseWriter.new.broken then ResponseWriter.new.body
         else ResponseWriter.new.body ++ bytes "Invalid credentials\n") ∧
      (mainPageHandler sampleGlobals ResponseWriter.new (loginRequest "alice" "wrong")
        (worldOf [])).2 = worldOf [] :=
  mainPageHandler_login_rejected sampleGlobals ResponseWriter.new (loginRequest "alice" "wrong")
    (worldOf []) rfl rfl (by decide)

/-! ## Sessions -/

theorem SetCookie_auth (w : ResponseWriter) (value : String) :
    (SetCookie w { Name := "auth", Value := value, Path := "/", MaxAge := 0 }).handlerHeader.SetCookie
      = w.handlerHeader.SetCookie ++
        [{ Name := "auth", Value := sanitizeCookieValue value, Path := "/", MaxAge := 0 }] ∧
    (SetCookie w { Name := "auth", Value := value, Path := "/", MaxAge := 0 }).wroteHeader
      = w.wroteHeader := by
  have hname : isCookieNameValid "auth" = true := by decide
  have hpath : sanitizeCookiePath "/" = "/" := by decide
  constructor <;> simp [SetCookie, hname, hpath]

/-- C6, as stated, fails, in three ways.  The record bob / pa:ss is in the
store and its login issues the cookie value "bob:pa:ss"; read back from a
later request, that value makes `mainPageHandler` render with
`IsAuthorized = false` and makes `authMiddleware` redirect without running
the wrapped handler.  The record carol / pa;ss is in the store and its login
issues the value "carol:pass", the semicolon dropped, which is refused in the
same way.  And the session of alice / secret1, presented on a `POST /` whose
form does not match the store, makes `mainPageHandler` answer 401 without
computing the flag at all. -/
theorem session_not_always_accepted :
    (({ Username := "bob", Password := "pa:ss" } : User) ∈ colonGlobals.userStore.Users ∧
      (mainPageHandler colonGlobals ResponseWriter.new (loginRequest "bob" "pa:ss")
          (worldOf [])).1.response.header.SetCookie =
        [{ Name := "auth", Value := "bob:pa:ss", Path := "/", MaxAge := 0 }] ∧
      parseCookieValue "bob:pa:ss" = some "bob:pa:ss" ∧
      (mainPageHandler colonGlobals ResponseWriter.new (requestWithAuth "bob:pa:ss")
          (worldOf [])).2.trace =
        [Event.osReadDir "files",
         Event.executeTemplate "main.html" { IsAuthorized := false, Files := [] }] ∧
      (authMiddleware colonGlobals markHandler ResponseWriter.new (requestWithAuth "bob:pa:ss")
          (worldOf [])).2.trace = [Event.log "Invalid cookie or credentials: 10.0.0.7:40000"] ∧
      (authMiddleware colonGlobals markHandler ResponseWriter.new (requestWithAuth "bob:pa:ss")
          (worldOf [])).1.response.status = 302) ∧
    (({ Username := "carol", Password := "pa;ss" } : User) ∈
        semicolonGlobals.userStore.Users ∧
      (mainPageHandler semicolonGlobals ResponseWriter.new (loginRequest "carol" "pa;ss")
          (worldOf [])).1.response.header.SetCookie =
        [{ Name := "auth", Value := "carol:pass", Path := "/", MaxAge := 0 }] ∧
      parseCookieValue "carol:pass" = some "carol:pass" ∧
      (mainPageHandler semicolonGlobals ResponseWriter.new (requestWithAuth "carol:pass")
          (worldOf [])).2.trace =
        [Event.osReadDir "files",
         Event.executeTemplate "main.html" { IsAuthorized := false, Files := [] }] ∧
      (authMiddleware semicolonGlobals markHandler ResponseWriter.new
          (requestWithAuth "carol:pass") (worldOf [])).2.trace =
        [Event.log "Invalid cookie or credentials: 10.0.0.7:40000"]) ∧
    ((mainPageHandler sampleGlobals ResponseWriter.new
          (loginRequestWithAuth "alice" "wrong" "alice:secret1") (worldOf [])).2.trace = [] ∧
      (mainPageHandler sampleGlobals ResponseWriter.new
          (loginRequestWithAuth "alice" "wrong" "alice:secret1")
          (worldOf [])).1.response.status = 401) := by
  decide

/-- C6, amended: for a record of the store whose username and password hold
no ':' and only bytes that are valid in a cookie value, a successful
`POST /` with that pair on a fresh writer issues exactly one new cookie,
`auth`, with path "/", whose value is read back from a `Cookie` header as
username + ":" + password; on any later request whose `auth` cookie has the
value read back, `mainPageHandler` hands `IsAuthorized = true` to the
template, unless the request is itself a `POST /` whose form is refused, and
`authMiddleware` runs the wrapped handler. -/
theorem session_accepted_plain_fields (g : Globals) (user : User) (w : ResponseWriter)
    (r : Request) (world : World)
    (hw : w.wroteHeader = false) (hm : r.Method = "POST")
    (huser : user ∈ g.userStore.Users)
    (hname : r.FormValue "username" = user.Username)
    (hpass : r.FormValue "password" = user.Password)
    (hu : ∀ c ∈ user.Username.data, c ≠ ':' ∧ validCookieValueByte c = true)
    (hp : ∀ c ∈ user.Password.data, c ≠ ':' ∧ validCookieValueByte c = true) :
    ∃ issued : Cookie,
      (mainPageHandler g w r world).1.response.header.SetCookie =
        w.handlerHeader.SetCookie ++ [issued] ∧
      issued.Name = "auth" ∧ issued.Path = "/" ∧
      issued.Value = sanitizeCookieValue (user.Username ++ ":" ++ user.Password) ∧
      parseCookieValue issued.Value = some (user.Username ++ ":" ++ user.Password) ∧
      ∀ (r2 : Request) (c : Cookie), r2.Cookie "auth" = some c →
        parseCookieValue issued.Value = some c.Value →
        (∀ (w2 : ResponseWriter) (world2 : World),
          (r2.Method = "POST" → validateCredentials g.userStore (r2.FormValue "username")
            (r2.FormValue "password") = true) →
          (mainPageHandler g w2 r2 world2).2.trace =
            world2.trace ++ [Event.osReadDir g.config.FileDir,
              Event.executeTemplate "main.html"
                { IsAuthorized := true, Files := (world2.ReadDir g.config.FileDir).2 }]) ∧
        (∀ (next : HandlerFunc) (w2 : ResponseWriter) (world2 : World),
          authMiddleware g next w2 r2 world2 = next w2 r2 world2) := by
  have hv : validateCredentials g.userStore user.Username user.Password = true :=
    (validateCredentials_loop_iff _ _ _).2 ⟨user, huser, rfl, rfl⟩
  obtain ⟨hne, hvalid⟩ := token_valid user.Username user.Password hu hp
  have hparse := parse_sanitize (user.Username ++ ":" ++ user.Password) hne hvalid
  have hu2 : ':' ∉ user.Username.data := fun h => (hu ':' h).1 rfl
  have hp2 : ':' ∉ user.Password.data := fun h => (hp ':' h).1 rfl
  refine ⟨{ Name := "auth",
            Value := sanitizeCookieValue (user.Username ++ ":" ++ user.Password),
            Path := "/", MaxAge := 0 }, ?_, rfl, rfl, rfl, hparse, ?_⟩
  · rw [mainPageHandler_login g w r world hm (by rw [hname, hpass]; exact hv), hname, hpass]
    obtain ⟨hc, hfresh⟩ := SetCookie_auth w (user.Username ++ ":" ++ user.Password)
    rw [renderMainPage_cookies g _ r world (by rw [hfresh]; exact hw), hc]
  · intro r2 c hc hval
    have hcv : c.Value = user.Username ++ ":" ++ user.Password := by
      simp only [] at hval
      rw [hparse] at hval
      exact (Option.some.inj hval).symm
    refine ⟨fun w2 world2 hm2 => ?_, fun next w2 world2 => ?_⟩
    · have hauth := isAuthorized_of_token g r2 c user.Username user.Password hc hcv hu2 hp2 hv
      by_cases hpost : r2.Method = "POST"
      · rw [mainPageHandler_login g w2 r2 world2 hpost (hm2 hpost), renderMainPage_world, hauth]
        simp [World.emit]
      · have e : mainPageHandler g w2 r2 world2 = renderMainPage g w2 r2 world2 := by
          simp [mainPageHandler, hpost]
        rw [e, renderMainPage_world, hauth]
        simp [World.emit]
    · exact authMiddleware_of_token g next w2 r2 world2 c user.Username user.Password
        hc hcv hu2 hp2 hv

/-- C6, amended, at the record alice / secret1. -/
theorem session_accepted_plain_fields_witness :
    ∃ issued : Cookie,
      (mainPageHandler sampleGlobals ResponseWriter.new (loginRequest "alice" "secret1")
        (worldOf [])).1.response.header.SetCookie =
        ResponseWriter.new.handlerHeader.SetCookie ++ [issued] ∧
      issued.Name = "auth" ∧ issued.Path = "/" ∧
      issued.Value = sanitizeCookieValue ((User.mk "alice" "secret1").Username ++ ":" ++
        (User.mk "alice" "secret1").Password) ∧
      parseCookieValue issued.Value = some ((User.mk "alice" "secret1").Username ++ ":" ++
        (User.mk "alice" "secret1").Password) ∧
      ∀ (r2 : Request) (c : Cookie), r2.Cookie "auth" = some c →
        parseCookieValue issued.Value = some c.Value →
        (∀ (w2 : ResponseWriter) (world2 : World),
          (r2.Method = "POST" → validateCredentials sampleGlobals.userStore
            (r2.FormValue "username") (r2.FormValue "password") = true) →
          (mainPageHandler sampleGlobals w2 r2 world2).2.trace =
            world2.trace ++ [Event.osReadDir sampleGlobals.config.FileDir,
              Event.executeTemplate "main.html"
                { IsAuthorized := true,
                  Files := (world2.ReadDir sampleGlobals.config.FileDir).2 }]) ∧
        (∀ (next : HandlerFunc) (w2 : ResponseWriter) (world2 : World),
          authMiddleware sampleGlobals next w2 r2 world2 = next w2 r2 world2) :=
  session_accepted_plain_fields sampleGlobals (User.mk "alice" "secret1") ResponseWriter.new
    (loginRequest "alice" "secret1") (worldOf []) rfl rfl (by decide) (by decide) (by decide)
    (by decide) (by decide)

/-! ## File storage -/

/-- C8: when `uploadHandler` stores the content `file.Data` under the name
`file.Filename` (method POST, `os.Create` succeeds, room on the disk, the
stream ends without error), whether the file existed or not, it answers with
the redirect, and a following `downloadHandler` for the same name on a fresh
writer answers 200 with exactly that content as body, with `Content-Type`
`application/octet-stream` and a `Content-Disposition` attachment header
that names the file. -/
theorem upload_then_download (g : Globals) (w1 w2 : ResponseWriter) (r1 r2 : Request)
    (world : World) (file : Upload)
    (hm : r1.Method = "POST") (hfile : r1.FormFile "file" = some file)
    (hcreate : world.fs.creatable (Join g.config.FileDir file.Filename) = true)
    (hspace : world.fs.noSpace = false) (herr : file.Err = false)
    (hw1 : w1.wroteHeader = false)
    (hq : r2.QueryGet "filename" = file.Filename)
    (hw2 : w2.wroteHeader = false) (hbody : w2.body = []) (hconn : w2.broken = false) :
    (uploadHandler g w1 r1 world).1.response.status = 302 ∧
      (uploadHandler g w1 r1 world).2.fs.lookup (Join g.config.FileDir file.Filename) =
        some file.Data ∧
      (downloadHandler g w2 r2 (uploadHandler g w1 r1 world).2).1.response.status = 200 ∧
      (downloadHandler g w2 r2 (uploadHandler g w1 r1 world).2).1.response.body = file.Data ∧
      (downloadHandler g w2 r2 (uploadHandler g w1 r1 world).2).1.response.header.Get
        "Content-Type" = "application/octet-stream" ∧
      (downloadHandler g w2 r2 (uploadHandler g w1 r1 world).2).1.response.header.Get
        "Content-Disposition" = "attachment; filename=\"" ++ file.Filename ++ "\"" := by
  rw [uploadHandler_stored g w1 r1 world file hm hfile hcreate hspace herr]
  have hstored : ∀ tr : List Event,
      (World.mk (world.fs.store (Join g.config.FileDir file.Filename) file.Data) tr).fs.lookup
        (Join g.config.FileDir (r2.QueryGet "filename")) = some file.Data := by
    intro tr; rw [hq]; exact FS.lookup_store_self _ _ _
  rw [downloadHandler_found g w2 r2 _ file.Data (hstored _) hw2 hconn]
  refine ⟨(Redirect_response w1 r1 "/" 302 hw1).1, FS.lookup_store_self _ _ _, rfl, ?_, ?_, ?_⟩
  · simp [hbody]
  · exact Header.Get_Set_self _ _ _
  · simp only []
    rw [Header.Get_Set_of_ne _ _ _ _ (by decide), Header.Get_Set_self, hq]

/-- C8 at the scenario of the specification: `report.txt` with content
"hello". -/
theorem upload_then_download_witness :
    (uploadHandler sampleGlobals ResponseWriter.new
        (uploadRequest ⟨"report.txt", [104, 101, 108, 108, 111], false⟩)
        (worldOf [])).1.response.status = 302 ∧
      (uploadHandler sampleGlobals ResponseWriter.new
        (uploadRequest ⟨"report.txt", [104, 101, 108, 108, 111], false⟩)
        (worldOf [])).2.fs.lookup (Join sampleGlobals.config.FileDir "report.txt") =
        some [104, 101, 108, 108, 111] ∧
      (downloadHandler sampleGlobals ResponseWriter.new (downloadRequest "report.txt")
        (uploadHandler sampleGlobals ResponseWriter.new
          (uploadRequest ⟨"report.txt", [104, 101, 108, 108, 111], false⟩)
          (worldOf [])).2).1.response.status = 200 ∧
      (downloadHandler sampleGlobals ResponseWriter.new (downloadRequest "report.txt")
        (uploadHandler sampleGlobals ResponseWriter.new
          (uploadRequest ⟨"report.txt", [104, 101, 108, 108, 111], false⟩)
          (worldOf [])).2).1.response.body = [104, 101, 108, 108, 111] ∧
      (downloadHandler sampleGlobals ResponseWriter.new (downloadRequest "report.txt")
        (uploadHandler sampleGlobals ResponseWriter.new
          (uploadRequest ⟨"report.txt", [104, 101, 108, 108, 111], false⟩)
          (worldOf [])).2).1.response.header.Get "Content-Type" =
        "application/octet-stream" ∧
      (downloadHandler sampleGlobals ResponseWriter.new (downloadRequest "report.txt")
        (uploadHandler sampleGlobals ResponseWriter.new
          (uploadRequest ⟨"report.txt", [104, 101, 108, 108, 111], false⟩)
          (worldOf [])).2).1.response.header.Get "Content-Disposition" =
        "attachment; filename=\"" ++ "report.txt" ++ "\"" :=
  upload_then_download sampleGlobals ResponseWriter.new ResponseWriter.new
    (uploadRequest ⟨"report.txt", [104, 101, 108, 108, 111], false⟩)
    (downloadRequest "report.txt") (worldOf [])
    ⟨"report.txt", [104, 101, 108, 108, 111], false⟩ rfl rfl rfl rfl rfl rfl rfl rfl rfl rfl

/-- C9, as stated, fails: the storage directory `files` exists and is empty,
so no file of the name "" exists in it, yet `deleteHandler` for the filename
"" does not answer 500: the path it resolves is the storage directory
itself, which is removed, and the answer is the 302 redirect.  (With a file
left in the directory the removal fails and the answer is 500.) -/
theorem deleteHandler_empty_name_removes_root :
    Join sampleGlobals.config.FileDir "" = "files" ∧
    emptyRootWorld.fs.lookup (Join sampleGlobals.config.FileDir "") = none ∧
    (deleteHandler sampleGlobals ResponseWriter.new (deleteRequest "")
        emptyRootWorld).1.response.status = 302 ∧
    (deleteHandler sampleGlobals ResponseWriter.new (deleteRequest "")
        emptyRootWorld).2.fs.files = [] ∧
    (deleteHandler sampleGlobals ResponseWriter.new (deleteRequest "")
        { emptyRootWorld with fs := emptyRootWorld.fs.store "files/a" [1] }).1.response.status
      = 500 := by
  decide

/-- C9, amended: for a `POST /delete` of the name `f` on a fresh writer, one
of three.
The removal succeeds (the path names a file or an empty directory and the
removal is allowed): `deleteHandler` answers with the 302 redirect to "/",
the path is gone, and a following `downloadHandler` for `f` answers 404 with
the text "File not found" as its whole body.  Or the path does not exist:
`deleteHandler` answers 500 and the file system is as it was.  Or the path
exists and the removal fails: 500 and the file system as it was, again. -/
theorem delete_then_download (g : Globals) (w1 w2 : ResponseWriter) (r1 r2 : Request)
    (world : World) (f : String)
    (hm : r1.Method = "POST") (hf : r1.FormValue "filename" = f)
    (hq : r2.QueryGet "filename" = f)
    (hw1 : w1.wroteHeader = false) (hw2 : w2.wroteHeader = false) :
    (world.fs.canRemove (Join g.config.FileDir f) = true ∧
        (world.fs.node (Join g.config.FileDir f)).isSome = true ∧
        (deleteHandler g w1 r1 world).1.response.status = 302 ∧
        (deleteHandler g w1 r1 world).1.response.header.Get "Location" = "/" ∧
        (deleteHandler g w1 r1 world).2.fs.node (Join g.config.FileDir f) = none ∧
        (downloadHandler g w2 r2 (deleteHandler g w1 r1 world).2).1.response.status = 404 ∧
        (downloadHandler g w2 r2 (deleteHandler g w1 r1 world).2).1.response.body =
          (if w2.broken then w2.body else w2.body ++ bytes "File not found\n")) ∨
    (world.fs.node (Join g.config.FileDir f) = none ∧
        (deleteHandler g w1 r1 world).1.response.status = 500 ∧
        (deleteHandler g w1 r1 world).2.fs = world.fs) ∨
    ((world.fs.node (Join g.config.FileDir f)).isSome = true ∧
        world.fs.canRemove (Join g.config.FileDir f) = false ∧
        (deleteHandler g w1 r1 world).1.response.status = 500 ∧
        (deleteHandler g w1 r1 world).2.fs = world.fs) := by
  cases hcan : world.fs.canRemove (Join g.config.FileDir f) with
  | false =>
    right
    have e := deleteHandler_refused g w1 r1 world hm (by rw [hf]; exact hcan)
    cases hn : world.fs.node (Join g.config.FileDir f) with
    | none =>
      left
      rw [e]
      exact ⟨rfl, (Error_response w1 _ 500 hw1).1, rfl⟩
    | some n =>
      right
      rw [e]
      exact ⟨rfl, rfl, (Error_response w1 _ 500 hw1).1, rfl⟩
  | true =>
    left
    rw [deleteHandler_removed g w1 r1 world hm (by rw [hf]; exact hcan)]
    obtain ⟨h1, h2, -⟩ := Redirect_response w1 r1 "/" 302 hw1
    have hgone : ∀ tr : List Event,
        (World.mk (world.fs.erase (Join g.config.FileDir (r1.FormValue "filename"))) tr).fs.node
          (Join g.config.FileDir (r2.QueryGet "filename")) = none := by
      intro tr; rw [hf, hq]; exact FS.node_erase_self _ _
    rw [downloadHandler_missing g w2 r2 _ (hgone _)]
    obtain ⟨e1, -, -, e4⟩ := Error_response w2 "File not found" 404 hw2
    refine ⟨rfl, FS.node_isSome_of_canRemove _ _ hcan, h1, h2, ?_, e1, e4⟩
    rw [hf]; exact FS.node_erase_self _ _

/-- C9 at a directory that holds `files/report.txt`: the first case holds. -/
theorem delete_then_download_witness :
    (deleteHandler sampleGlobals ResponseWriter.new (deleteRequest "report.txt")
        (worldOf [("files/report.txt", [104, 105])])).1.response.status = 302 ∧
      (downloadHandler sampleGlobals ResponseWriter.new (downloadRequest "report.txt")
        (deleteHandler sampleGlobals ResponseWriter.new (deleteRequest "report.txt")
          (worldOf [("files/report.txt", [104, 105])])).2).1.response.status = 404 :=
  (delete_then_download sampleGlobals ResponseWriter.new ResponseWriter.new
    (deleteRequest "report.txt") (downloadRequest "report.txt")
    (worldOf [("files/report.txt", [104, 105])]) "report.txt" rfl rfl rfl rfl rfl).elim
    (fun h => ⟨h.2.2.1, h.2.2.2.2.2.1⟩)
    (fun h => h.elim (fun h => absurd h.1 (by decide)) (fun h => absurd h.2.1 (by decide)))

theorem uploadHandler_create_failed (g : Globals) (w : ResponseWriter) (r : Request)
    (world : World) (file : Upload) (hm : r.Method = "POST")
    (hfile : r.FormFile "file" = some file)
    (hcreate : world.fs.creatable (Join g.config.FileDir file.Filename) = false) :
    (uploadHandler g w r world).1 = Error w "Failed to save file" 500 := by
  simp [uploadHandler, hm, hfile, World.Create, World.emit, hcreate]

theorem uploadHandler_copy_failed (g : Globals) (w : ResponseWriter) (r : Request)
    (world : World) (file : Upload) (hm : r.Method = "POST")
    (hfile : r.FormFile "file" = some file)
    (hcreate : world.fs.creatable (Join g.config.FileDir file.Filename) = true)
    (hcopy : (file.Data ≠ [] ∧ world.fs.noSpace = true) ∨ file.Err = true) :
    (uploadHandler g w r world).1 =
      Redirect (Error w "Failed to save file" 500) r "/" 302 := by
  by_cases hfull : file.Data ≠ [] ∧ world.fs.noSpace = true
  · have hns : (world.fs.store (Join g.config.FileDir file.Filename) []).noSpace = true :=
      hfull.2
    simp [uploadHandler, hm, hfile, World.Create, World.Copy, World.emit, hcreate, hfull.1,
      hns]
  · have herr : file.Err = true := hcopy.resolve_left hfull
    have hns : ¬ (file.Data ≠ [] ∧
        (world.fs.store (Join g.config.FileDir file.Filename) []).noSpace = true) := hfull
    simp only [uploadHandler, hm, hfile, World.Create, World.Copy, World.emit, hcreate]
    simp [hns, herr]

/-- C10: the response of `uploadHandler` on a fresh writer is one of four.
A method other than POST gets 405 and a request without the file gets 400.
When `os.Create` fails, or copying fails because the disk is full or the
stream ends in a read error, the response is the 500 error and carries no
`Location`.  The response is the 302 redirect to "/" in the one remaining
case: the file was created and the whole stream is its content. -/
theorem uploadHandler_redirect_iff_stored (g : Globals) (w : ResponseWriter) (r : Request)
    (world : World) (hw : w.wroteHeader = false)
    (hloc : w.handlerHeader.Has "Location" = false) :
    (r.Method ≠ "POST" ∧
        (uploadHandler g w r world).1.response.status = 405 ∧
        (uploadHandler g w r world).1.response.header.Has "Location" = false) ∨
    (r.Method = "POST" ∧ r.FormFile "file" = none ∧
        (uploadHandler g w r world).1.response.status = 400 ∧
        (uploadHandler g w r world).1.response.header.Has "Location" = false) ∨
    (∃ file, r.Method = "POST" ∧ r.FormFile "file" = some file ∧
        (world.fs.creatable (Join g.config.FileDir file.Filename) = false ∨
          (file.Data ≠ [] ∧ world.fs.noSpace = true) ∨ file.Err = true) ∧
        (uploadHandler g w r world).1.response.status = 500 ∧
        (uploadHandler g w r world).1.response.header.Has "Location" = false) ∨
    (∃ file, r.Method = "POST" ∧ r.FormFile "file" = some file ∧
        world.fs.creatable (Join g.config.FileDir file.Filename) = true ∧
        ¬ (file.Data ≠ [] ∧ world.fs.noSpace = true) ∧ file.Err = false ∧
        (uploadHandler g w r world).1.response.status = 302 ∧
        (uploadHandler g w r world).1.response.header.Get "Location" = "/" ∧
        (uploadHandler g w r world).2.fs.lookup (Join g.config.FileDir file.Filename) =
          some file.Data) := by
  by_cases hm : r.Method = "POST"
  · cases hfile : r.FormFile "file" with
    | none =>
      right; left
      have e : uploadHandler g w r world = (Error w "Failed to read file" 400, world) := by
        simp [uploadHandler, hm, hfile]
      obtain ⟨e1, -, e3, -⟩ := Error_response w "Failed to read file" 400 hw
      rw [e]
      exact ⟨hm, rfl, e1, by rw [e3]; exact hloc⟩
    | some file =>
      right; right
      cases hcreate : world.fs.creatable (Join g.config.FileDir file.Filename) with
      | false =>
        left
        refine ⟨file, hm, rfl, Or.inl hcreate, ?_⟩
        rw [uploadHandler_create_failed g w r world file hm hfile hcreate]
        obtain ⟨e1, -, e3, -⟩ := Error_response w "Failed to save file" 500 hw
        exact ⟨e1, by rw [e3]; exact hloc⟩
      | true =>
        by_cases hcopy : (file.Data ≠ [] ∧ world.fs.noSpace = true) ∨ file.Err = true
        · left
          refine ⟨file, hm, rfl, Or.inr (by tauto), ?_⟩
          rw [uploadHandler_copy_failed g w r world file hm hfile hcreate hcopy]
          obtain ⟨e1, e2⟩ := Redirect_after_Error w r "Failed to save file" "/" 500 302 hw
          exact ⟨e1, by rw [e2]; exact hloc⟩
        · right
          have hfull : ¬ (file.Data ≠ [] ∧ world.fs.noSpace = true) := fun h => hcopy (Or.inl h)
          have herr : file.Err = false := by
            cases h : file.Err
            · rfl
            · exact absurd (Or.inr h) hcopy
          have hspace : world.fs.noSpace = false ∨ file.Data = [] := by
            cases h : world.fs.noSpace
            · exact Or.inl rfl
            · right
              by_contra hd
              exact hfull ⟨hd, h⟩
          have e : uploadHandler g w r world =
              (Redirect w r "/" 302,
                World.mk (world.fs.store (Join g.config.FileDir file.Filename) file.Data)
                  (world.trace ++ [Event.osCreate (Join g.config.FileDir file.Filename)])) := by
            have hns : ¬ (file.Data ≠ [] ∧
                (world.fs.store (Join g.config.FileDir file.Filename) []).noSpace = true) :=
              hfull
            simp only [uploadHandler, hm, hfile, World.Create, World.Copy, World.emit, hcreate]
            simp [hns, herr, FS.lookup_store_self, FS.store_store]
          obtain ⟨h1, h2, -⟩ := Redirect_response w r "/" 302 hw
          refine ⟨file, hm, rfl, hcreate, hfull, herr, ?_⟩
          rw [e]
          exact ⟨h1, h2, FS.lookup_store_self _ _ _⟩
  · left
    have e : uploadHandler g w r world = (Error w "Method not allowed" 405, world) := by
      simp [uploadHandler, hm]
    obtain ⟨e1, -, e3, -⟩ := Error_response w "Method not allowed" 405 hw
    rw [e]
    exact ⟨hm, e1, by rw [e3]; exact hloc⟩

/-- C10 at an upload whose stream breaks after two bytes: the response is
the 500 error without `Location`. -/
theorem uploadHandler_redirect_iff_stored_witness :
    (uploadHandler sampleGlobals ResponseWriter.new (uploadRequest brokenUpload)
        (worldOf [])).1.response.status = 500 ∧
      (uploadHandler sampleGlobals ResponseWriter.new (uploadRequest brokenUpload)
        (worldOf [])).1.response.header.Has "Location" = false :=
  (uploadHandler_redirect_iff_stored sampleGlobals ResponseWriter.new
    (uploadRequest brokenUpload) (worldOf []) rfl rfl).elim
    (fun h => absurd rfl h.1)
    (fun h => h.elim (fun h => absurd h.2.1 (by decide))
      (fun h => h.elim
        (fun h => h.elim (fun _ hf => hf.2.2.2))
        (fun h => h.elim (fun file hf => by
          have hfile : file = brokenUpload := by
            have := hf.2.1
            exact (Option.some.inj this).symm
          have herr := hf.2.2.2.2.1
          rw [hfile] at herr
          exact absurd herr (by decide)))))

/-- After a copy error `uploadHandler` runs on into `http.Redirect`, for
lack of a return after `http.Error`: the header map of the writer then
carries `Location: /`, which is no longer sent, and the status stays 500.
When `os.Create` fails the handler returns after the error. -/
theorem uploadHandler_runs_on_after_copy_error :
    (uploadHandler sampleGlobals ResponseWriter.new (uploadRequest brokenUpload)
        (worldOf [])).1 =
      Redirect (Error ResponseWriter.new "Failed to save file" 500)
        (uploadRequest brokenUpload) "/" 302 ∧
    (uploadHandler sampleGlobals ResponseWriter.new (uploadRequest brokenUpload)
        (worldOf [])).1.handlerHeader.Get "Location" = "/" ∧
    (uploadHandler sampleGlobals ResponseWriter.new (uploadRequest brokenUpload)
        (worldOf [])).1.response.header.Get "Location" = "" ∧
    (uploadHandler sampleGlobals ResponseWriter.new (uploadRequest brokenUpload)
        (worldOf [])).1.response.status = 500 ∧
    (uploadHandler sampleGlobals ResponseWriter.new (uploadRequest brokenUpload)
        (worldOf [])).2.fs.lookup "files/report.txt" = some [104, 101] ∧
    (uploadHandler sampleGlobals ResponseWriter.new (uploadRequest brokenUpload)
        readOnlyWorld).1 = Error ResponseWriter.new "Failed to save file" 500 := by
  decide

/-! ## Path resolution -/

/-- C7, as stated, fails: with the storage root `files`, the filename
"../secret" resolves to `secret`, which is not under `files`;
`downloadHandler` opens that path and sends its content, and `deleteHandler`
removes it. -/
theorem resolved_path_escapes_root :
    Join sampleGlobals.config.FileDir "../secret" = "secret" ∧
    (cleanParts sampleGlobals.config.FileDir).elems.isPrefixOf (cleanParts "secret").elems
      = false ∧
    (downloadHandler sampleGlobals ResponseWriter.new (downloadRequest "../secret")
        (worldOf [("secret", [1, 2, 3])])).2.trace = [Event.osOpen "secret"] ∧
    (downloadHandler sampleGlobals ResponseWriter.new (downloadRequest "../secret")
        (worldOf [("secret", [1, 2, 3])])).1.response.body = [1, 2, 3] ∧
    (deleteHandler sampleGlobals ResponseWriter.new (deleteRequest "../secret")
        (worldOf [("secret", [1, 2, 3])])).2.trace = [Event.osRemove "secret"] ∧
    (deleteHandler sampleGlobals ResponseWriter.new (deleteRequest "../secret")
        (worldOf [("secret", [1, 2, 3])])).2.fs.files = [] := by
  decide

/-- C7, amended: for a storage root that is not empty and a filename none of
whose elements between separators is "..", `downloadHandler` opens and
`deleteHandler` removes the path `Join root filename`, and this path is the
cleaned root followed by the elements of the filename other than "" and ".":
it is never outside the root.  For a filename without separator, other than
"" and ".", these elements are the filename alone: the path is a direct
child of the root. -/
theorem resolved_path_without_dotdot (g : Globals) (w : ResponseWriter)
    (rDown rDel : Request) (world : World) (f : String)
    (hroot : g.config.FileDir ≠ "") (hdd : ∀ e ∈ Split f '/', e ≠ "..")
    (hq : rDown.QueryGet "filename" = f)
    (hm : rDel.Method = "POST") (hf : rDel.FormValue "filename" = f) :
    (downloadHandler g w rDown world).2.trace =
        world.trace ++ [Event.osOpen (Join g.config.FileDir f)] ∧
      (deleteHandler g w rDel world).2.trace =
        world.trace ++ [Event.osRemove (Join g.config.FileDir f)] ∧
      Join g.config.FileDir f =
        render { rooted := (cleanParts g.config.FileDir).rooted
                 elems := (cleanParts g.config.FileDir).elems ++
                   (Split f '/').filter (fun e => decide (e ≠ "" ∧ e ≠ ".")) } ∧
      ('/' ∉ f.data ∧ f ≠ "" ∧ f ≠ "." →
        (Split f '/').filter (fun e => decide (e ≠ "" ∧ e ≠ ".")) = [f]) := by
  refine ⟨?_, ?_, ?_, ?_⟩
  · rw [downloadHandler_trace, hq]
  · rw [deleteHandler_trace g w rDel world hm, hf]
  · rw [Join, if_pos hroot, joinStrings_pair, Clean, cleanParts_child _ _ hroot hdd]
  · rintro ⟨hsep, hne, hdot⟩
    rw [Split_of_not_mem f '/' hsep]
    simp [hne, hdot]

/-- C7, amended, at the root `files` and the filename `report.txt`. -/
theorem resolved_path_without_dotdot_witness :
    (downloadHandler sampleGlobals ResponseWriter.new (downloadRequest "report.txt")
        (worldOf [])).2.trace =
        (worldOf []).trace ++ [Event.osOpen (Join sampleGlobals.config.FileDir "report.txt")] ∧
      (deleteHandler sampleGlobals ResponseWriter.new (deleteRequest "report.txt")
        (worldOf [])).2.trace =
        (worldOf []).trace ++
          [Event.osRemove (Join sampleGlobals.config.FileDir "report.txt")] ∧
      Join sampleGlobals.config.FileDir "report.txt" =
        render { rooted := (cleanParts sampleGlobals.config.FileDir).rooted
                 elems := (cleanParts sampleGlobals.config.FileDir).elems ++
                   (Split "report.txt" '/').filter (fun e => decide (e ≠ "" ∧ e ≠ ".")) } ∧
      ('/' ∉ "report.txt".data ∧ "report.txt" ≠ "" ∧ "report.txt" ≠ "." →
        (Split "report.txt" '/').filter (fun e => decide (e ≠ "" ∧ e ≠ ".")) =
          ["report.txt"]) :=
  resolved_path_without_dotdot sampleGlobals ResponseWriter.new (downloadRequest "report.txt")
    (deleteRequest "report.txt") (worldOf []) "report.txt" (by decide) (by decide) rfl rfl rfl

end FileServer
